import Mathlib

/-!
Verification development for the `pretty` value-rendering package
(`formatter.go` / `pretty.go`).

The development is a shallow embedding of the core rendering engine:

* `Ty` / `Val` model the reflective view of Go values that `printValue`
  dispatches on (`reflect.Type` / `reflect.Value`): one constructor per
  structural kind handled by the `switch v.Kind()` statement.
* `Heap` models the memory that non-nil pointers dereference into.
* `Config` models the process-wide configuration cells (`humanize`,
  `newlineAfterItems`, `outputIndentLevel`).
* `RState` models the mutable state threaded through one formatting call:
  the emitted byte/string stream (`out`, each write tagged with the depth of
  nested indent writers it goes through), the process-wide humanize layout
  trackers `currOutputLine` / `sawCloseBracketLast`, and the per-call
  `visited` map of `printValue`.  Two observation counters (`cyc`,
  `depthHits`) count how often the cyclic-reference sentinel and the
  depth-exceeded sentinel are emitted; they are bumped exactly at the two
  code sites that write those sentinels and have no other effect.
* `run` is the embedding of `printValue` together with its three in-line
  loops (struct fields, map entries, slice/array elements); `renderTop`
  is the embedding of the rendering path of `formatter.Format` (fresh
  tabwriter, fresh printer with empty `visited`, `printValue(v, true, quote)`,
  final `Flush`).  The elastic-tab alignment and the line-prefixing of the
  nested indent writers are external text-layout collaborators; the
  embedding records the exact string/flush stream handed to them, with the
  indent-nesting level of each write, so two runs produce byte-identical
  final text iff they produce the same `out` stream.
-/

set_option maxHeartbeats 4000000
set_option maxRecDepth 4000

namespace Pretty

/-- Structural kinds of Go types as seen by `printValue` via `reflect.Type`.
Composite kinds carry the string returned by `Type.String()` (used when a
type name is printed) and the component types the code actually consults:
`t.Elem()` for maps, slices and arrays, and per-field `(Name, pretty-tag,
Type)` for structs.  Pointer, interface, chan and func types are only ever
used for their name, so they carry just that. -/
inductive Ty where
  | bool
  | int
  | uint
  | float
  | complex
  | string
  | map_ (name : String) (elem : Ty)
  | struct_ (name : String) (fields : List (String × String × Ty))
  | iface (name : String)
  | array (name : String) (elem : Ty)
  | slice (name : String) (elem : Ty)
  | ptr (name : String)
  | chan (name : String)
  | func (name : String)
  | unsafeptr

mutual

/-- Equality of types, modelling `reflect.Type` identity (used as part of the
key of the `visited` map). -/
def tyBEq : Ty → Ty → Bool
  | .bool, .bool => true
  | .int, .int => true
  | .uint, .uint => true
  | .float, .float => true
  | .complex, .complex => true
  | .string, .string => true
  | .map_ n e, .map_ n' e' => n == n' && tyBEq e e'
  | .struct_ n fs, .struct_ n' fs' => n == n' && tyFieldsBEq fs fs'
  | .iface n, .iface n' => n == n'
  | .array n e, .array n' e' => n == n' && tyBEq e e'
  | .slice n e, .slice n' e' => n == n' && tyBEq e e'
  | .ptr n, .ptr n' => n == n'
  | .chan n, .chan n' => n == n'
  | .func n, .func n' => n == n'
  | .unsafeptr, .unsafeptr => true
  | _, _ => false

def tyFieldsBEq : List (String × String × Ty) → List (String × String × Ty) → Bool
  | [], [] => true
  | (a, b, c) :: fs, (a', b', c') :: gs =>
    a == a' && b == b' && tyBEq c c' && tyFieldsBEq fs gs
  | _, _ => false

end

/-- `Type.String()`. -/
def tyName : Ty → String
  | .bool => "bool"
  | .int => "int"
  | .uint => "uint"
  | .float => "float64"
  | .complex => "complex128"
  | .string => "string"
  | .map_ n _ => n
  | .struct_ n _ => n
  | .iface n => n
  | .array n _ => n
  | .slice n _ => n
  | .ptr n => n
  | .chan n => n
  | .func n => n
  | .unsafeptr => "unsafe.Pointer"

/-- The field specifications of a struct type (`t.Field(i)` for each `i`). -/
def tyFields : Ty → List (String × String × Ty)
  | .struct_ _ fs => fs
  | _ => []

/-- Whether `t.Elem().Kind() == reflect.Interface`, for the map/slice/array
types on which the code asks this. -/
def elemIsIface : Ty → Bool
  | .map_ _ e => match e with | .iface _ => true | _ => false
  | .slice _ e => match e with | .iface _ => true | _ => false
  | .array _ e => match e with | .iface _ => true | _ => false
  | _ => false

/-- Runtime values as seen by `printValue` via `reflect.Value`, one
constructor per `reflect.Kind` group the code dispatches on.  Floats and
complex numbers carry the string `fmt` produces for them under `%#v` (their
numerics play no role in the renderer).  A struct carries `some addr` iff the
value is addressable (`v.CanAddr()`); a non-nil pointer carries the heap
address of its pointee; a nil slice carries `none` for its elements. -/
inductive Val where
  | bool (b : Bool)
  | int (n : Int)
  | uint (n : Nat)
  | float (lit : String)
  | complex (lit : String)
  | str (s : String)
  | map_ (t : Ty) (entries : List (Val × Val))
  | struct_ (t : Ty) (addr : Option Nat) (fields : List Val)
  | iface (t : Ty) (elem : Option Val)
  | array (t : Ty) (elems : List Val)
  | slice (t : Ty) (elems : Option (List Val))
  | ptr (t : Ty) (target : Option Nat)
  | chan (t : Ty) (addr : Nat)
  | func (t : Ty)
  | unsafeptr (addr : Nat)
  | invalid

/-- Memory holding the pointees of non-nil pointers. -/
def Heap : Type := Nat → Option Val

/-- The process-wide configuration cells read by the renderer:
`outputIndentLevel` (consumed only by the external tabwriter),
`humanize` and `newlineAfterItems`. -/
structure Config where
  outputIndentLevel : Nat := 4
  humanize : Bool := false
  newlineAfterItems : Bool := false

/-- One write handed to the output sink: a string written at a given
indent-writer nesting level, or a `tabwriter.Flush` of the writer at that
level.  The column alignment and indent prefixing performed downstream are
deterministic functions of this stream. -/
inductive Tok where
  | str (ind : Nat) (s : String)
  | flush (ind : Nat)
deriving DecidableEq

/-- The state mutated while rendering: output stream, the two process-wide
humanize layout tracker cells (`currOutputLine`, `sawCloseBracketLast`), the
per-call `visited` map (keys are `(address, type)`, values the depth first
seen, newest binding first), and the two sentinel-observation counters. -/
structure RState where
  out : List Tok
  curr : String
  sawClose : Nat
  visited : List ((Nat × Ty) × Nat)
  cyc : Nat
  depthHits : Nat

/-- A `printer` value: which writer it writes to (as its indent-nesting
level) and its recursion `depth` counter. -/
structure Printer where
  ind : Nat
  depth : Nat

/-- `p.indent()`: a copy of the printer writing through one more indent
writer. -/
def Printer.indentNext (p : Printer) : Printer := { p with ind := p.ind + 1 }

/-- Last line of a string, as `strings.Split(s, "\n")` followed by taking the
final element (what the tracker code stores into `currOutputLine`). -/
def lastLine (s : String) : String := (s.splitOn "\n").getLastD ""

/-- A raw write that bypasses the tracker bookkeeping (`fmt.Fprintf` /
`io.WriteString` called directly on the printer, as in `printInline` and the
Complex/Chan cases). -/
def writeRaw (ind : Nat) (s : String) (st : RState) : RState :=
  { st with out := st.out ++ [Tok.str ind s] }

/-- A `tabwriter.Flush()` of the writer at nesting level `ind`. -/
def flushTw (ind : Nat) (st : RState) : RState :=
  { st with out := st.out ++ [Tok.flush ind] }

/-- `writeString`: in humanize mode zero `sawCloseBracketLast` for non-empty
strings and store the written string's last line into `currOutputLine`; then
write. -/
def writeString (cfg : Config) (ind : Nat) (s : String) (st : RState) : RState :=
  let st :=
    if cfg.humanize then
      { st with
        sawClose := if s ≠ "" then 0 else st.sawClose
        curr := lastLine s }
    else st
  { st with out := st.out ++ [Tok.str ind s] }

/-- `writeByte`: in humanize mode the structural braces are suppressed from
the output entirely, a close brace still bumping `sawCloseBracketLast`; other
bytes update `currOutputLine`, zero `sawCloseBracketLast` and are written. -/
def writeByte (cfg : Config) (ind : Nat) (c : Char) (st : RState) : RState :=
  if cfg.humanize && (c = '\x7b' || c = '\x7d') then
    if c = '\x7d' then { st with sawClose := st.sawClose + 1 } else st
  else
    let st :=
      if cfg.humanize then
        if c = '\n' then { st with curr := "" }
        else { st with curr := st.curr ++ c.toString }
      else st
    { st with sawClose := 0, out := st.out ++ [Tok.str ind c.toString] }

/-- `indentNeeded()`: always in structured mode; in humanize mode only when
the current output line already holds a `:` (a key header awaiting its
value). -/
def indentNeeded (cfg : Config) (st : RState) : Bool :=
  if !cfg.humanize then true
  else if st.curr.contains ':' then true
  else false

/-- `newlineNeeded()` (humanize mode): no close bracket was just suppressed,
or, with `newlineAfterItems` on, exactly two were. -/
def newlineNeeded (cfg : Config) (st : RState) : Bool :=
  if st.sawClose = 0 || (cfg.newlineAfterItems && st.sawClose = 2) then true
  else false

/-- Lowercase hexadecimal digits of `n` (used for the `0x...` literals `fmt`
produces for `uintptr`/`uint` values under `%#v`). -/
def natHex (n : Nat) : String := String.mk (Nat.toDigits 16 n)

/-- The `0x`-prefixed literal `%#v` produces for unsigned/pointer words. -/
def uintLit (n : Nat) : String := "0x" ++ natHex n

/-- Model of `strconv.Quote`: wrap in double quotes, escaping quote,
backslash and control characters (exotic non-printables are modelled with a
`\u` escape; the claims only exercise printable ASCII). -/
def goQuoteChar (c : Char) : String :=
  if c = '"' then "\\\""
  else if c = '\\' then "\\\\"
  else if c = '\n' then "\\n"
  else if c = '\t' then "\\t"
  else if c = '\r' then "\\r"
  else if 32 ≤ c.toNat && c.toNat < 127 then c.toString
  else "\\u" ++ natHex c.toNat

def goQuote (s : String) : String :=
  "\"" ++ String.join (s.toList.map goQuoteChar) ++ "\""

/-- `strings.TrimSpace(s) == ""` (the "whitespace-only" test; Lean's `trim`
strips the same ASCII whitespace for the inputs in play). -/
def allSpace (s : String) : Bool := s.trim = ""

/-- `fmtString`: quote when the caller asks, or when humanizing a non-empty
whitespace-only string; then `writeString`. -/
def fmtString (cfg : Config) (ind : Nat) (s : String) (quote : Bool) (st : RState) : RState :=
  let s := if quote || (cfg.humanize && s ≠ "" && allSpace s) then goQuote s else s
  writeString cfg ind s st

/-- `printInline`: with a type to show (structured mode) write the type name
(tracked) then `(lit)` raw; otherwise write the literal raw — quoted if it is
non-empty whitespace-only in humanize mode — and in humanize mode store the
literal's last line into `currOutputLine`. -/
def printInline (cfg : Config) (ind : Nat) (tyStr lit : String) (showType : Bool)
    (st : RState) : RState :=
  if showType && !cfg.humanize then
    let st := writeString cfg ind tyStr st
    writeRaw ind ("(" ++ lit ++ ")") st
  else
    let st :=
      if cfg.humanize && lit ≠ "" && allSpace lit then
        writeRaw ind ("\"" ++ lit ++ "\"")  st
      else writeRaw ind lit st
    if cfg.humanize then { st with curr := lastLine lit } else st

/-- `parseTag`: split a `pretty:"..."` tag at its first comma into name and
options. -/
def parseTag (tag : String) : String × String :=
  match tag.splitOn "," with
  | [] => ("", "")
  | n :: rest => (n, String.intercalate "," rest)

/-- `tagOptions.Contains`: empty options hold nothing; otherwise the option
list is the comma-separated segments. -/
def tagContains (o : String) (optionName : String) : Bool :=
  if o.length = 0 then false
  else (o.splitOn ",").contains optionName

/-- `isValidTag`: non-empty, and every rune is an allowed punctuation
character, a letter or a digit (backslash and quote are rejected by falling
through to the letter/digit test). -/
def isValidTag (s : String) : Bool :=
  if s = "" then false
  else s.toList.all fun c =>
    "!#$%&()*+-./:<=>?@[]^_\x7b|\x7d~ ".contains c || c.isAlpha || c.isDigit

/-- `isEmptyValue`: zero length for array/map/slice/string kinds, nil for
interface/pointer kinds, nothing else is empty. -/
def isEmptyValue : Val → Bool
  | .array _ es => es.length == 0
  | .map_ _ es => es.length == 0
  | .slice _ es => (match es with | none => 0 | some l => l.length) == 0
  | .str s => s.length == 0
  | .iface _ e => e.isNone
  | .ptr _ a => a.isNone
  | _ => false

/-- `getField(v, i)`: the field value, unwrapped once when it is a non-nil
interface. -/
def getField : Val → Val
  | .iface _ (some inner) => inner
  | v => v

mutual

/-- A value free of owning references and tagged unions: no pointer and no
interface constructor anywhere in its structure. -/
def refFree : Val → Bool
  | .ptr _ _ => false
  | .iface _ _ => false
  | .map_ _ es => refFreePairs es
  | .struct_ _ _ fs => refFreeList fs
  | .array _ es => refFreeList es
  | .slice _ es => match es with | none => true | some l => refFreeList l
  | _ => true

def refFreeList : List Val → Bool
  | [] => true
  | v :: r => refFree v && refFreeList r

def refFreePairs : List (Val × Val) → Bool
  | [] => true
  | (k, v) :: r => refFree k && refFree v && refFreePairs r

end

/-- `canExpand`: the composite/indirection kinds. -/
def canExpand : Ty → Bool
  | .map_ _ _ => true
  | .struct_ _ _ => true
  | .iface _ => true
  | .array _ _ => true
  | .slice _ _ => true
  | .ptr _ => true
  | _ => false

/-- `canInline`: never in humanize mode; otherwise a one-level static
lookahead over the type's kind. -/
def canInline (cfg : Config) : Ty → Bool := fun t =>
  if cfg.humanize then false
  else
    match t with
    | .map_ _ e => !canExpand e
    | .struct_ _ fs => !(fs.any fun f => canExpand f.2.2)
    | .iface _ => false
    | .array _ e => !canExpand e
    | .slice _ e => !canExpand e
    | .ptr _ => false
    | .chan _ => false
    | .func _ => false
    | .unsafeptr => false
    | _ => true

/-- `labelType`: show the type inside a struct for interface- and
struct-typed fields. -/
def labelType : Ty → Bool
  | .iface _ => true
  | .struct_ _ _ => true
  | _ => false

mutual

/-- Modelled from the spec: the guard `nonzero(v)` is used by `printValue`
but its definition is not part of the provided source files; §4.5 of the
spec describes the guard as rendering the element list only "if non-empty
(or always, in humanize mode)".  Modelled as: a value is nonzero when it is
not the zero value of its kind. -/
def nonzero : Val → Bool
  | .bool b => b
  | .int n => !(n == 0)
  | .uint n => !(n == 0)
  | .float lit => !(lit == "0")
  | .complex lit => !(lit == "(0+0i)")
  | .str s => !(s == "")
  | .map_ _ es => !es.isEmpty
  | .struct_ _ _ fs => nonzeroAny fs
  | .iface _ e => e.isSome
  | .array _ es => nonzeroAny es
  | .slice _ es => match es with | none => false | some l => !l.isEmpty
  | .ptr _ a => a.isSome
  | .chan _ _ => true
  | .func _ => true
  | .unsafeptr a => !(a == 0)
  | .invalid => false

def nonzeroAny : List Val → Bool
  | [] => false
  | v :: rest => nonzero v || nonzeroAny rest

end

/-- Lookup in the `visited` map: newest binding for the `(addr, type)` key. -/
def visLookup (vis : List ((Nat × Ty) × Nat)) (a : Nat) (t : Ty) : Option Nat :=
  match vis.find? (fun e => e.1.1 == a && tyBEq e.1.2 t) with
  | some e => some e.2
  | none => none

/-- `p.visited[vis] = p.depth` (newest binding shadows older ones). -/
def visInsert (a : Nat) (t : Ty) (d : Nat) (st : RState) : RState :=
  { st with visited := ((a, t), d) :: st.visited }

/-- The struct-case cycle test: the key is visited at a depth strictly below
the current one. -/
def cycHit (st : RState) (addr : Option Nat) (t : Ty) (depth : Nat) : Bool :=
  match addr with
  | none => false
  | some a =>
    match visLookup st.visited a t with
    | some vd => vd < depth
    | none => false

/-- The struct-field separator: a tracked newline when humanize says one is
needed, `",\n"` when expanded, `", "` between inline items. -/
def sepStruct (cfg : Config) (ind : Nat) (expand more : Bool) (st : RState) : RState :=
  if cfg.humanize then
    if newlineNeeded cfg st then writeByte cfg ind '\n' st else st
  else if expand then writeString cfg ind ",\n" st
  else if more then writeString cfg ind ", " st
  else st

/-- The map-entry separator (the humanize newline goes through `writeString`
here, as in the source). -/
def sepMap (cfg : Config) (ind : Nat) (expand more : Bool) (st : RState) : RState :=
  if expand then
    if cfg.humanize then
      if newlineNeeded cfg st then writeString cfg ind "\n" st else st
    else writeString cfg ind ",\n" st
  else if more then writeString cfg ind ", " st
  else st

/-- The slice/array element separator. -/
def sepSlice (cfg : Config) (ind : Nat) (expand more : Bool) (st : RState) : RState :=
  if cfg.humanize then
    if newlineNeeded cfg st then writeByte cfg ind '\n' st else st
  else if expand then writeString cfg ind ",\n" st
  else if more then writeString cfg ind ", " st
  else st

/-- The rendering of a nil pointer (`(T)(nil)` structured, `nil`
humanized). -/
def ptrNil (cfg : Config) (ind : Nat) (t : Ty) (st : RState) : RState :=
  if cfg.humanize then writeString cfg ind "nil" st
  else
    let st := writeByte cfg ind '(' st
    let st := writeString cfg ind (tyName t) st
    writeString cfg ind ")(nil)" st

/-- The common prefix of the composite cases: emit the type name when
requested (struct/map guard it with `!humanize`; with `humanize` the
show-type flag has already been forced off), then the opening brace. -/
def openComposite (cfg : Config) (ind : Nat) (showType : Bool) (t : Ty) (st : RState) : RState :=
  let st :=
    if showType then
      if !cfg.humanize then writeString cfg ind (tyName t) st else st
    else st
  writeByte cfg ind '\x7b' st

/-- The expand/indent decision shared by the map, struct and slice/array
cases: `expand := !canInline(type)`; when expanding and `indentNeeded()`,
write a newline and switch to an indented printer.  Returns
`(expand, pp, st)`. -/
def expandPlan (cfg : Config) (t : Ty) (p : Printer) (st : RState) :
    Bool × Printer × RState :=
  let expand := !canInline cfg t
  let doInd := expand && indentNeeded cfg st
  (expand,
   ⟨if doInd then p.ind + 1 else p.ind, p.depth⟩,
   if doInd then writeByte cfg p.ind '\n' st else st)

/-- After a loop: `pp.tw.Flush()` when expanded, then the closing brace of
printer `p`. -/
def closeComposite (cfg : Config) (p : Printer) (expand : Bool) (ppInd : Nat) (st : RState) :
    RState :=
  let st := if expand then flushTw ppInd st else st
  writeByte cfg p.ind '\x7d' st

/-- `name`, `:` and the expand tab in front of a struct field or map
entry value. -/
def fieldHeader (cfg : Config) (ind : Nat) (expand : Bool) (name : String) (st : RState) :
    RState :=
  let st := writeString cfg ind name st
  let st := writeByte cfg ind ':' st
  if expand then writeByte cfg ind '\t' st else st

/-- The struct-case preamble once the cycle check has passed: record the
`(addr, type)` key at the current depth when the value is addressable. -/
def structMark (p : Printer) (addr : Option Nat) (t : Ty) (st : RState) : RState :=
  match addr with
  | some a => visInsert a t p.depth st
  | none => st

/-- The cyclic-reference sentinel: `T{(CYCLIC REFERENCE)}` through
`fmtString` without quoting (the `cyc` counter observes the event). -/
def cycOut (cfg : Config) (ind : Nat) (t : Ty) (st : RState) : RState :=
  fmtString cfg ind (tyName t ++ "\x7b(CYCLIC REFERENCE)\x7d") false
    { st with cyc := st.cyc + 1 }

/-- The depth-exceeded sentinel (the `depthHits` counter observes the
event). -/
def depthOut (cfg : Config) (ind : Nat) (st : RState) : RState :=
  writeString cfg ind "!%v(DEPTH EXCEEDED)" { st with depthHits := st.depthHits + 1 }

/-- The Chan case: `(T)(0x...)` with the type, a bare `0x...` without. -/
def chanOut (cfg : Config) (ind : Nat) (t : Ty) (a : Nat) (showType : Bool) (st : RState) :
    RState :=
  if showType then
    let st := writeByte cfg ind '(' st
    let st := writeString cfg ind (tyName t) st
    writeRaw ind (")(" ++ uintLit a ++ ")") st
  else writeRaw ind (uintLit a) st

/-- The Func case: type name and a fixed body placeholder, written
unconditionally. -/
def funcOut (cfg : Config) (ind : Nat) (t : Ty) (st : RState) : RState :=
  let st := writeString cfg ind (tyName t) st
  writeString cfg ind " \x7b...\x7d" st

/-- The nil-slice case: `(nil)` after the type name, or a bare `nil`. -/
def sliceNil (cfg : Config) (ind : Nat) (showType : Bool) (st : RState) : RState :=
  if showType then writeString cfg ind "(nil)" st
  else writeString cfg ind "nil" st

theorem getField_sizeOf (v : Val) : sizeOf (getField v) ≤ sizeOf v := by
  cases v with
  | iface t e =>
    cases e with
    | none => simp [getField]
    | some inner => simp [getField]; omega
  | _ => simp [getField]

/-- The pending work items of the renderer: a `printValue(v, showType, quote)`
call on printer `p`, or one of its three in-line loops (struct fields, map
entries, slice/array elements) running on printer `pp` with the loop's
`expand` flag (and, for maps and slices, the precomputed
`t.Elem().Kind() == Interface`). -/
inductive Job where
  | val (p : Printer) (v : Val) (showType quote : Bool)
  | fields (pp : Printer) (expand : Bool) (tfs : List (String × String × Ty)) (vfs : List Val)
  | entries (pp : Printer) (expand : Bool) (eIfc : Bool) (es : List (Val × Val))
  | elems (pp : Printer) (expand : Bool) (eIfc : Bool) (vs : List Val)

/-- The embedding of `printValue` (the `.val` case, one arm per
`reflect.Kind` group in the source's switch) together with its three
in-line loops. -/
def run (H : Heap) (cfg : Config) : Job → RState → RState
  | .val p v showType quote, st =>
    if hdep : 10 < p.depth then depthOut cfg p.ind st
    else
      let quote := if cfg.humanize then false else quote
      let showType := if cfg.humanize then false else showType
      match v with
      | .bool b => printInline cfg p.ind (tyName .bool) (cond b "true" "false") showType st
      | .int n => printInline cfg p.ind (tyName .int) (toString n) showType st
      | .uint n => printInline cfg p.ind (tyName .uint) (uintLit n) showType st
      | .float lit => printInline cfg p.ind (tyName .float) lit showType st
      | .complex lit => writeRaw p.ind lit st
      | .str s => fmtString cfg p.ind s quote st
      | .map_ t es =>
        let st := openComposite cfg p.ind showType t st
        let st :=
          if nonzero (.map_ t es) || cfg.humanize then
            let pl := expandPlan cfg t p st
            closeComposite cfg p pl.1 pl.2.1.ind
              (run H cfg (.entries pl.2.1 pl.1 (elemIsIface t) es) pl.2.2)
          else writeByte cfg p.ind '\x7d' st
        st
      | .struct_ t addr vfs =>
        if cycHit st addr t p.depth then cycOut cfg p.ind t st
        else
          let st := structMark p addr t st
          let st := openComposite cfg p.ind showType t st
          if nonzero (.struct_ t addr vfs) || cfg.humanize then
            let pl := expandPlan cfg t p st
            closeComposite cfg p pl.1 pl.2.1.ind
              (run H cfg (.fields pl.2.1 pl.1 (tyFields t) vfs) pl.2.2)
          else writeByte cfg p.ind '\x7d' st
      | .iface _ e =>
        match e with
        | none => writeString cfg p.ind "nil" st
        | some ev => run H cfg (.val ⟨p.ind, p.depth + 1⟩ ev showType true) st
      | .array t es =>
        let st := if showType then writeString cfg p.ind (tyName t) st else st
        let st := writeByte cfg p.ind '\x7b' st
        let pl := expandPlan cfg t p st
        closeComposite cfg p pl.1 pl.2.1.ind
          (run H cfg (.elems pl.2.1 pl.1 (elemIsIface t) es) pl.2.2)
      | .slice t eso =>
        let st := if showType then writeString cfg p.ind (tyName t) st else st
        match eso with
        | none => sliceNil cfg p.ind showType st
        | some es =>
          let st := writeByte cfg p.ind '\x7b' st
          let pl := expandPlan cfg t p st
          closeComposite cfg p pl.1 pl.2.1.ind
            (run H cfg (.elems pl.2.1 pl.1 (elemIsIface t) es) pl.2.2)
      | .ptr t tgt =>
        match tgt with
        | none => ptrNil cfg p.ind t st
        | some a =>
          match H a with
          | some ev =>
            let pp : Printer := ⟨p.ind, p.depth + 1⟩
            let st := if !cfg.humanize then writeByte cfg pp.ind '&' st else st
            run H cfg (.val pp ev true true) st
          | none => ptrNil cfg p.ind t st
      | .chan t a => chanOut cfg p.ind t a showType st
      | .func t => funcOut cfg p.ind t st
      | .unsafeptr a => printInline cfg p.ind (tyName .unsafeptr) (uintLit a) showType st
      | .invalid => writeString cfg p.ind "nil" st
  | .fields pp expand tfs vfs, st =>
    match tfs, vfs with
    | (fname, ftag, fty) :: tfs', fv :: vfs' =>
      if fname == "" then
        let st := run H cfg (.val pp (getField fv) (!cfg.humanize) true) st
        run H cfg (.fields pp expand tfs' vfs')
          (sepStruct cfg pp.ind expand (!vfs'.isEmpty) st)
      else if cfg.humanize then
        if ftag == "-" then run H cfg (.fields pp expand tfs' vfs') st
        else
          let name := if isValidTag (parseTag ftag).1 then (parseTag ftag).1 else fname
          let omitEmpty := tagContains (parseTag ftag).2 "omitempty"
          if omitEmpty && isEmptyValue (getField fv) then
            run H cfg (.fields pp expand tfs' vfs') st
          else
            let st := fieldHeader cfg pp.ind expand name st
            let st := run H cfg (.val pp (getField fv) false true) st
            run H cfg (.fields pp expand tfs' vfs')
              (sepStruct cfg pp.ind expand (!vfs'.isEmpty) st)
      else
        let st := fieldHeader cfg pp.ind expand fname st
        let st := run H cfg (.val pp (getField fv) (labelType fty) true) st
        run H cfg (.fields pp expand tfs' vfs')
          (sepStruct cfg pp.ind expand (!vfs'.isEmpty) st)
    | _, _ => st
  | .entries pp expand eIfc es, st =>
    match es with
    | [] => st
    | (k, mv) :: rest =>
      let st := run H cfg (.val pp k false true) st
      let st := writeByte cfg pp.ind ':' st
      let st := if expand then writeByte cfg pp.ind '\t' st else st
      let st := run H cfg (.val pp mv (if !cfg.humanize then eIfc else false) true) st
      run H cfg (.entries pp expand eIfc rest)
        (sepMap cfg pp.ind expand (!rest.isEmpty) st)
  | .elems pp expand eIfc vs, st =>
    match vs with
    | [] => st
    | ev :: rest =>
      let st := run H cfg (.val pp ev eIfc true) st
      run H cfg (.elems pp expand eIfc rest)
        (sepSlice cfg pp.ind expand (!rest.isEmpty) st)
termination_by j _ =>
  ((match j with
    | .val p _ _ _ => 11 - p.depth
    | .fields pp _ _ _ => 11 - pp.depth
    | .entries pp _ _ _ => 11 - pp.depth
    | .elems pp _ _ _ => 11 - pp.depth),
   (match j with
    | .val _ v _ _ => sizeOf v
    | .fields _ _ _ vfs => sizeOf vfs
    | .entries _ _ _ es => sizeOf es
    | .elems _ _ _ vs => sizeOf vs))
decreasing_by
  all_goals first
  | (left; omega)
  | (right; simp [expandPlan]; omega)
  | (right; simp [expandPlan]; have := getField_sizeOf fv; omega)
  | (simp [expandPlan]; omega)

/-- The rendering path of `formatter.Format`: fresh tabwriter, fresh printer
with an empty `visited` set and depth 0, then `printValue(v, true, quote)`
and a final `Flush`.  The process-wide humanize layout tracker cells persist
across calls, so they are inputs (`curr`, `saw`); the output stream, the
visited set and the sentinel counters start fresh for each call. -/
def renderTop (H : Heap) (cfg : Config) (v : Val) (quote : Bool) (curr : String) (saw : Nat) :
    RState :=
  let st : RState :=
    { out := [], curr := curr, sawClose := saw, visited := [], cyc := 0, depthHits := 0 }
  let st := run H cfg (.val ⟨0, 0⟩ v true quote) st
  flushTw 0 st

/-- The concatenated text of an output stream (the byte stream before the
external tab-alignment/indent layout, which maps equal streams to equal
final bytes). -/
def outString (toks : List Tok) : String :=
  String.join (toks.map fun tk => match tk with | .str _ s => s | .flush _ => "")

/-- A fuelled mirror of `run`, structurally recursive on the fuel: `none`
means the fuel ran out before the call tree completed.  Used to state that
the renderer's recursion is finite. -/
def runFuel (H : Heap) (cfg : Config) : Nat → Job → RState → Option RState
  | 0, _, _ => none
  | n + 1, .val p v showType quote, st =>
    if 10 < p.depth then some (depthOut cfg p.ind st)
    else
      let quote := if cfg.humanize then false else quote
      let showType := if cfg.humanize then false else showType
      match v with
      | .bool b => some (printInline cfg p.ind (tyName .bool) (cond b "true" "false") showType st)
      | .int m => some (printInline cfg p.ind (tyName .int) (toString m) showType st)
      | .uint m => some (printInline cfg p.ind (tyName .uint) (uintLit m) showType st)
      | .float lit => some (printInline cfg p.ind (tyName .float) lit showType st)
      | .complex lit => some (writeRaw p.ind lit st)
      | .str s => some (fmtString cfg p.ind s quote st)
      | .map_ t es =>
        let st := openComposite cfg p.ind showType t st
        if nonzero (.map_ t es) || cfg.humanize then
          let pl := expandPlan cfg t p st
          (runFuel H cfg n (.entries pl.2.1 pl.1 (elemIsIface t) es) pl.2.2).bind fun st =>
            some (closeComposite cfg p pl.1 pl.2.1.ind st)
        else some (writeByte cfg p.ind '\x7d' st)
      | .struct_ t addr vfs =>
        if cycHit st addr t p.depth then some (cycOut cfg p.ind t st)
        else
          let st := structMark p addr t st
          let st := openComposite cfg p.ind showType t st
          if nonzero (.struct_ t addr vfs) || cfg.humanize then
            let pl := expandPlan cfg t p st
            (runFuel H cfg n (.fields pl.2.1 pl.1 (tyFields t) vfs) pl.2.2).bind fun st =>
              some (closeComposite cfg p pl.1 pl.2.1.ind st)
          else some (writeByte cfg p.ind '\x7d' st)
      | .iface _ e =>
        match e with
        | none => some (writeString cfg p.ind "nil" st)
        | some ev => runFuel H cfg n (.val ⟨p.ind, p.depth + 1⟩ ev showType true) st
      | .array t es =>
        let st := if showType then writeString cfg p.ind (tyName t) st else st
        let st := writeByte cfg p.ind '\x7b' st
        let pl := expandPlan cfg t p st
        (runFuel H cfg n (.elems pl.2.1 pl.1 (elemIsIface t) es) pl.2.2).bind fun st =>
          some (closeComposite cfg p pl.1 pl.2.1.ind st)
      | .slice t eso =>
        let st := if showType then writeString cfg p.ind (tyName t) st else st
        match eso with
        | none => some (sliceNil cfg p.ind showType st)
        | some es =>
          let st := writeByte cfg p.ind '\x7b' st
          let pl := expandPlan cfg t p st
          (runFuel H cfg n (.elems pl.2.1 pl.1 (elemIsIface t) es) pl.2.2).bind fun st =>
            some (closeComposite cfg p pl.1 pl.2.1.ind st)
      | .ptr t tgt =>
        match tgt with
        | none => some (ptrNil cfg p.ind t st)
        | some a =>
          match H a with
          | some ev =>
            let pp : Printer := ⟨p.ind, p.depth + 1⟩
            let st := if !cfg.humanize then writeByte cfg pp.ind '&' st else st
            runFuel H cfg n (.val pp ev true true) st
          | none => some (ptrNil cfg p.ind t st)
      | .chan t a => some (chanOut cfg p.ind t a showType st)
      | .func t => some (funcOut cfg p.ind t st)
      | .unsafeptr a => some (printInline cfg p.ind (tyName .unsafeptr) (uintLit a) showType st)
      | .invalid => some (writeString cfg p.ind "nil" st)
  | n + 1, .fields pp expand tfs vfs, st =>
    match tfs, vfs with
    | (fname, ftag, fty) :: tfs', fv :: vfs' =>
      if fname == "" then
        (runFuel H cfg n (.val pp (getField fv) (!cfg.humanize) true) st).bind fun st =>
          runFuel H cfg n (.fields pp expand tfs' vfs')
            (sepStruct cfg pp.ind expand (!vfs'.isEmpty) st)
      else if cfg.humanize then
        if ftag == "-" then runFuel H cfg n (.fields pp expand tfs' vfs') st
        else
          let name := if isValidTag (parseTag ftag).1 then (parseTag ftag).1 else fname
          let omitEmpty := tagContains (parseTag ftag).2 "omitempty"
          if omitEmpty && isEmptyValue (getField fv) then
            runFuel H cfg n (.fields pp expand tfs' vfs') st
          else
            let st := fieldHeader cfg pp.ind expand name st
            (runFuel H cfg n (.val pp (getField fv) false true) st).bind fun st =>
              runFuel H cfg n (.fields pp expand tfs' vfs')
                (sepStruct cfg pp.ind expand (!vfs'.isEmpty) st)
      else
        let st := fieldHeader cfg pp.ind expand fname st
        (runFuel H cfg n (.val pp (getField fv) (labelType fty) true) st).bind fun st =>
          runFuel H cfg n (.fields pp expand tfs' vfs')
            (sepStruct cfg pp.ind expand (!vfs'.isEmpty) st)
    | _, _ => some st
  | n + 1, .entries pp expand eIfc es, st =>
    match es with
    | [] => some st
    | (k, mv) :: rest =>
      (runFuel H cfg n (.val pp k false true) st).bind fun st =>
        let st := writeByte cfg pp.ind ':' st
        let st := if expand then writeByte cfg pp.ind '\t' st else st
        (runFuel H cfg n (.val pp mv (if !cfg.humanize then eIfc else false) true) st).bind
          fun st =>
            runFuel H cfg n (.entries pp expand eIfc rest)
              (sepMap cfg pp.ind expand (!rest.isEmpty) st)
  | n + 1, .elems pp expand eIfc vs, st =>
    match vs with
    | [] => some st
    | ev :: rest =>
      (runFuel H cfg n (.val pp ev eIfc true) st).bind fun st =>
        runFuel H cfg n (.elems pp expand eIfc rest)
          (sepSlice cfg pp.ind expand (!rest.isEmpty) st)

/-- The fuelled mirror of `renderTop`. -/
def renderTopFuel (H : Heap) (cfg : Config) (n : Nat) (v : Val) (quote : Bool)
    (curr : String) (saw : Nat) : Option RState :=
  let st : RState :=
    { out := [], curr := curr, sawClose := saw, visited := [], cyc := 0, depthHits := 0 }
  (runFuel H cfg n (.val ⟨0, 0⟩ v true quote) st).bind fun st => some (flushTw 0 st)

/-! Go map values are references: a cycle can close through a map with no
pointer and no interface anywhere on the path (`type M map[string]M` with
`m["x"] = m`).  The inductive `Val` above cannot represent such a value —
its `map_` constructor carries its entries — so the Map case of `printValue`
is re-embedded below over reference-maps: a map value is an address, and the
heap resolves the address to the entry list, exactly as `reflect` resolves
`v.MapKeys()` / `v.MapIndex(k)` against the map object itself.  Apart from
where the entries come from, the `.mapRef` arm and the entries loop of
`runFuelX` are the `map_` and `.entries` arms of `runFuel`, unchanged: the
same depth guard, the same `openComposite`/`expandPlan`/`closeComposite`
and separators, and — as in the source's Map case — no depth increment and
no visited check on the recursive entry renders. -/

/-- A value for the reference-map fragment: strings (the keys) and map
references. -/
inductive XVal where
  | str (s : String)
  | mapRef (t : Ty) (a : Nat)

/-- The reference-map heap: each map address resolves to its (possibly
empty) entry list. -/
def XHeap := Nat → List (XVal × XVal)

/-- The pending work items of the reference-map fragment. -/
inductive XJob where
  | val (p : Printer) (v : XVal) (showType quote : Bool)
  | entries (pp : Printer) (expand : Bool) (eIfc : Bool) (es : List (XVal × XVal))

/-- The fuelled renderer over reference-maps (`none` = the fuel ran out
before the call tree completed).  The `.mapRef` arm is the Map case of
`printValue`: type name and opening brace, the non-empty/humanize guard,
the expand/indent plan, the entries loop (key, `:`, tab, value, separator),
flush and closing brace — with the entries looked up through the map
reference, and the recursive calls at the same depth. -/
def runFuelX (HX : XHeap) (cfg : Config) : Nat → XJob → RState → Option RState
  | 0, _, _ => none
  | n + 1, .val p v showType quote, st =>
    if 10 < p.depth then some (depthOut cfg p.ind st)
    else
      let quote := if cfg.humanize then false else quote
      let showType := if cfg.humanize then false else showType
      match v with
      | .str s => some (fmtString cfg p.ind s quote st)
      | .mapRef t a =>
        let st := openComposite cfg p.ind showType t st
        if !(HX a).isEmpty || cfg.humanize then
          let pl := expandPlan cfg t p st
          (runFuelX HX cfg n (.entries pl.2.1 pl.1 (elemIsIface t) (HX a)) pl.2.2).bind
            fun st => some (closeComposite cfg p pl.1 pl.2.1.ind st)
        else some (writeByte cfg p.ind '\x7d' st)
  | n + 1, .entries pp expand eIfc es, st =>
    match es with
    | [] => some st
    | (k, mv) :: rest =>
      (runFuelX HX cfg n (.val pp k false true) st).bind fun st =>
        let st := writeByte cfg pp.ind ':' st
        let st := if expand then writeByte cfg pp.ind '\t' st else st
        (runFuelX HX cfg n (.val pp mv (if !cfg.humanize then eIfc else false) true) st).bind
          fun st =>
            runFuelX HX cfg n (.entries pp expand eIfc rest)
              (sepMap cfg pp.ind expand (!rest.isEmpty) st)

/-- `formatter.Format` on a reference-map value (fresh printer at depth 0,
`printValue(v, true, quote)`, final flush), fuelled. -/
def renderTopFuelX (HX : XHeap) (cfg : Config) (n : Nat) (v : XVal) (quote : Bool)
    (curr : String) (saw : Nat) : Option RState :=
  let st : RState :=
    { out := [], curr := curr, sawClose := saw, visited := [], cyc := 0, depthHits := 0 }
  (runFuelX HX cfg n (.val ⟨0, 0⟩ v true quote) st).bind fun st => some (flushTw 0 st)

/-- The declared Go type `type M map[string]M`, truncated after the one
level of element structure the renderer inspects (`canInline` and
`elemIsIface` look only at the element's kind). -/
def selfMapTy : Ty := .map_ "pretty.M" (.map_ "pretty.M" .string)

/-- The failing input `m := M\x7b\x7d; m["x"] = m`: the map at address 0
contains itself under key `"x"`. -/
def selfMapHeapX : XHeap := fun a =>
  if a = 0 then [(.str "x", .mapRef selfMapTy 0)] else []

/-! Concrete fixtures used by the example-level theorems below. -/

/-- The default structured-mode configuration. -/
def structuredCfg : Config := { humanize := false, newlineAfterItems := false }

/-- The humanize-mode configuration (with `newlineAfterItems` off, its
default). -/
def humanizeCfg : Config := { humanize := true, newlineAfterItems := false }

/-- A heap with no allocated pointees. -/
def emptyHeap : Heap := fun _ => none

/-- A chain of `n` nested non-nil pointers ending at the integer `7`:
`chainVal (k+1)` points at address `k`, which `chainHeap` maps to
`chainVal k`. -/
def chainVal : Nat → Val
  | 0 => .int 7
  | k + 1 => .ptr (.ptr "*int") (some k)

def chainHeap : Heap := fun a => some (chainVal a)

/-- The type of a self-referential record: `type R struct { Self *R }`. -/
def selfTy : Ty := .struct_ "pretty.R" [("Self", "", .ptr "*pretty.R")]

/-- The self-referential record at address 7: its `Self` field points back
at itself. -/
def selfVal : Val := .struct_ selfTy (some 7) [.ptr (.ptr "*pretty.R") (some 7)]

def selfHeap : Heap := fun a => if a = 7 then some selfVal else none

/-- `type S struct { F int }` holding `1`, used by the determinism
counterexample. -/
def c1Ty : Ty := .struct_ "pretty.S" [("F", "", .int)]

def c1Val : Val := .struct_ c1Ty none [.int 1]

/-- A self-referential record value: a struct (with arbitrary declared
names and field tag) whose single field is a pointer back to its own
address. -/
def selfLike (sname fname ftag pname : String) (a : Nat) : Val :=
  .struct_ (.struct_ sname [(fname, ftag, .ptr pname)]) (some a)
    [.ptr (.ptr pname) (some a)]

/-- A reference-free value nested `n` structural levels deep (arrays in
arrays). -/
def deepVal : Nat → Val
  | 0 => .int 1
  | n + 1 => .array (.array "deep" .int) [deepVal n]

/-! Projection lemmas for the write primitives: none of them touches the
sentinel counters or (apart from `visInsert`) the visited set, and each
appends a known number of tokens to the output. -/

/-- The spec's "expandable" notion, written from the claim's words: it
"holds exactly for the Map, Record, TaggedUnion, Sequence and
OwningReference type kinds" (Sequence covering both array and slice
kinds). -/
def specExpandable : Ty → Bool
  | .map_ _ _ => true
  | .struct_ _ _ => true
  | .iface _ => true
  | .array _ _ => true
  | .slice _ _ => true
  | .ptr _ => true
  | _ => false

/-- The claim's emptiness notion, written from its words: "empty holds iff
the value is a zero-length sequence/array, zero-length map, or zero-length
string, or a null OwningReference/TaggedUnion; booleans, numbers, and
records are never empty". -/
def specEmpty : Val → Bool
  | .array _ es => es.length == 0
  | .slice _ es => (match es with | none => 0 | some l => l.length) == 0
  | .map_ _ es => es.length == 0
  | .str s => s.length == 0
  | .ptr _ a => a.isNone
  | .iface _ e => e.isNone
  | _ => false

@[simp] theorem writeRaw_cyc (i : Nat) (s : String) (st : RState) :
    (writeRaw i s st).cyc = st.cyc := rfl

@[simp] theorem writeRaw_depthHits (i : Nat) (s : String) (st : RState) :
    (writeRaw i s st).depthHits = st.depthHits := rfl

@[simp] theorem writeRaw_visited (i : Nat) (s : String) (st : RState) :
    (writeRaw i s st).visited = st.visited := rfl

@[simp] theorem writeRaw_out (i : Nat) (s : String) (st : RState) :
    (writeRaw i s st).out = st.out ++ [Tok.str i s] := rfl

@[simp] theorem flushTw_cyc (i : Nat) (st : RState) : (flushTw i st).cyc = st.cyc := rfl

@[simp] theorem flushTw_depthHits (i : Nat) (st : RState) :
    (flushTw i st).depthHits = st.depthHits := rfl

@[simp] theorem flushTw_visited (i : Nat) (st : RState) :
    (flushTw i st).visited = st.visited := rfl

@[simp] theorem flushTw_out (i : Nat) (st : RState) :
    (flushTw i st).out = st.out ++ [Tok.flush i] := rfl

@[simp] theorem writeString_cyc (cfg : Config) (i : Nat) (s : String) (st : RState) :
    (writeString cfg i s st).cyc = st.cyc := by
  simp only [writeString]; split <;> rfl

@[simp] theorem writeString_depthHits (cfg : Config) (i : Nat) (s : String) (st : RState) :
    (writeString cfg i s st).depthHits = st.depthHits := by
  simp only [writeString]; split <;> rfl

@[simp] theorem writeString_visited (cfg : Config) (i : Nat) (s : String) (st : RState) :
    (writeString cfg i s st).visited = st.visited := by
  simp only [writeString]; split <;> rfl

@[simp] theorem writeString_out (cfg : Config) (i : Nat) (s : String) (st : RState) :
    (writeString cfg i s st).out = st.out ++ [Tok.str i s] := by
  simp only [writeString]; split <;> rfl

@[simp] theorem writeByte_cyc (cfg : Config) (i : Nat) (c : Char) (st : RState) :
    (writeByte cfg i c st).cyc = st.cyc := by
  simp only [writeByte]; (repeat' split) <;> rfl

@[simp] theorem writeByte_depthHits (cfg : Config) (i : Nat) (c : Char) (st : RState) :
    (writeByte cfg i c st).depthHits = st.depthHits := by
  simp only [writeByte]; (repeat' split) <;> rfl

@[simp] theorem writeByte_visited (cfg : Config) (i : Nat) (c : Char) (st : RState) :
    (writeByte cfg i c st).visited = st.visited := by
  simp only [writeByte]; (repeat' split) <;> rfl

theorem writeByte_out (cfg : Config) (i : Nat) (c : Char) (st : RState) :
    (writeByte cfg i c st).out
      = st.out ++ (if cfg.humanize && (c = '\x7b' || c = '\x7d') then [] else [Tok.str i c.toString]) := by
  simp only [writeByte]; (repeat' split) <;> simp_all

@[simp] theorem fmtString_cyc (cfg : Config) (i : Nat) (s : String) (q : Bool) (st : RState) :
    (fmtString cfg i s q st).cyc = st.cyc := by
  simp [fmtString]

@[simp] theorem fmtString_depthHits (cfg : Config) (i : Nat) (s : String) (q : Bool)
    (st : RState) : (fmtString cfg i s q st).depthHits = st.depthHits := by
  simp [fmtString]

@[simp] theorem fmtString_visited (cfg : Config) (i : Nat) (s : String) (q : Bool)
    (st : RState) : (fmtString cfg i s q st).visited = st.visited := by
  simp [fmtString]

theorem fmtString_out_len (cfg : Config) (i : Nat) (s : String) (q : Bool) (st : RState) :
    (fmtString cfg i s q st).out.length = st.out.length + 1 := by
  simp [fmtString]

@[simp] theorem printInline_cyc (cfg : Config) (i : Nat) (t l : String) (sT : Bool)
    (st : RState) : (printInline cfg i t l sT st).cyc = st.cyc := by
  simp only [printInline]; (repeat' split) <;> simp

@[simp] theorem printInline_depthHits (cfg : Config) (i : Nat) (t l : String) (sT : Bool)
    (st : RState) : (printInline cfg i t l sT st).depthHits = st.depthHits := by
  simp only [printInline]; (repeat' split) <;> simp

@[simp] theorem printInline_visited (cfg : Config) (i : Nat) (t l : String) (sT : Bool)
    (st : RState) : (printInline cfg i t l sT st).visited = st.visited := by
  simp only [printInline]; (repeat' split) <;> simp

theorem printInline_out_len (cfg : Config) (i : Nat) (t l : String) (sT : Bool)
    (st : RState) : st.out.length ≤ (printInline cfg i t l sT st).out.length := by
  simp only [printInline]; (repeat' split) <;> simp <;> omega

@[simp] theorem visInsert_cyc (a : Nat) (t : Ty) (d : Nat) (st : RState) :
    (visInsert a t d st).cyc = st.cyc := rfl

@[simp] theorem visInsert_depthHits (a : Nat) (t : Ty) (d : Nat) (st : RState) :
    (visInsert a t d st).depthHits = st.depthHits := rfl

@[simp] theorem visInsert_out (a : Nat) (t : Ty) (d : Nat) (st : RState) :
    (visInsert a t d st).out = st.out := rfl

@[simp] theorem visInsert_curr (a : Nat) (t : Ty) (d : Nat) (st : RState) :
    (visInsert a t d st).curr = st.curr := rfl

@[simp] theorem visInsert_sawClose (a : Nat) (t : Ty) (d : Nat) (st : RState) :
    (visInsert a t d st).sawClose = st.sawClose := rfl

@[simp] theorem sepStruct_cyc (cfg : Config) (i : Nat) (e m : Bool) (st : RState) :
    (sepStruct cfg i e m st).cyc = st.cyc := by
  simp only [sepStruct]; (repeat' split) <;> simp

@[simp] theorem sepStruct_depthHits (cfg : Config) (i : Nat) (e m : Bool) (st : RState) :
    (sepStruct cfg i e m st).depthHits = st.depthHits := by
  simp only [sepStruct]; (repeat' split) <;> simp

@[simp] theorem sepStruct_visited (cfg : Config) (i : Nat) (e m : Bool) (st : RState) :
    (sepStruct cfg i e m st).visited = st.visited := by
  simp only [sepStruct]; (repeat' split) <;> simp

theorem sepStruct_out_len (cfg : Config) (i : Nat) (e m : Bool) (st : RState) :
    st.out.length ≤ (sepStruct cfg i e m st).out.length := by
  simp only [sepStruct]; (repeat' split) <;> simp [writeByte_out] <;> (repeat' split) <;> simp

@[simp] theorem sepMap_cyc (cfg : Config) (i : Nat) (e m : Bool) (st : RState) :
    (sepMap cfg i e m st).cyc = st.cyc := by
  simp only [sepMap]; (repeat' split) <;> simp

@[simp] theorem sepMap_depthHits (cfg : Config) (i : Nat) (e m : Bool) (st : RState) :
    (sepMap cfg i e m st).depthHits = st.depthHits := by
  simp only [sepMap]; (repeat' split) <;> simp

@[simp] theorem sepMap_visited (cfg : Config) (i : Nat) (e m : Bool) (st : RState) :
    (sepMap cfg i e m st).visited = st.visited := by
  simp only [sepMap]; (repeat' split) <;> simp

theorem sepMap_out_len (cfg : Config) (i : Nat) (e m : Bool) (st : RState) :
    st.out.length ≤ (sepMap cfg i e m st).out.length := by
  simp only [sepMap]; (repeat' split) <;> simp

@[simp] theorem sepSlice_cyc (cfg : Config) (i : Nat) (e m : Bool) (st : RState) :
    (sepSlice cfg i e m st).cyc = st.cyc := by
  simp only [sepSlice]; (repeat' split) <;> simp

@[simp] theorem sepSlice_depthHits (cfg : Config) (i : Nat) (e m : Bool) (st : RState) :
    (sepSlice cfg i e m st).depthHits = st.depthHits := by
  simp only [sepSlice]; (repeat' split) <;> simp

@[simp] theorem sepSlice_visited (cfg : Config) (i : Nat) (e m : Bool) (st : RState) :
    (sepSlice cfg i e m st).visited = st.visited := by
  simp only [sepSlice]; (repeat' split) <;> simp

theorem sepSlice_out_len (cfg : Config) (i : Nat) (e m : Bool) (st : RState) :
    st.out.length ≤ (sepSlice cfg i e m st).out.length := by
  simp only [sepSlice]; (repeat' split) <;> simp [writeByte_out] <;> (repeat' split) <;> simp

@[simp] theorem ptrNil_cyc (cfg : Config) (i : Nat) (t : Ty) (st : RState) :
    (ptrNil cfg i t st).cyc = st.cyc := by
  simp only [ptrNil]; split <;> simp

@[simp] theorem ptrNil_depthHits (cfg : Config) (i : Nat) (t : Ty) (st : RState) :
    (ptrNil cfg i t st).depthHits = st.depthHits := by
  simp only [ptrNil]; split <;> simp

@[simp] theorem ptrNil_visited (cfg : Config) (i : Nat) (t : Ty) (st : RState) :
    (ptrNil cfg i t st).visited = st.visited := by
  simp only [ptrNil]; split <;> simp

@[simp] theorem openComposite_cyc (cfg : Config) (i : Nat) (sT : Bool) (t : Ty) (st : RState) :
    (openComposite cfg i sT t st).cyc = st.cyc := by
  simp only [openComposite]; (repeat' split) <;> simp

@[simp] theorem openComposite_depthHits (cfg : Config) (i : Nat) (sT : Bool) (t : Ty)
    (st : RState) : (openComposite cfg i sT t st).depthHits = st.depthHits := by
  simp only [openComposite]; (repeat' split) <;> simp

@[simp] theorem openComposite_visited (cfg : Config) (i : Nat) (sT : Bool) (t : Ty)
    (st : RState) : (openComposite cfg i sT t st).visited = st.visited := by
  simp only [openComposite]; (repeat' split) <;> simp

@[simp] theorem expandPlan_cyc (cfg : Config) (t : Ty) (p : Printer) (st : RState) :
    (expandPlan cfg t p st).2.2.cyc = st.cyc := by
  simp only [expandPlan]; (repeat' split) <;> simp

@[simp] theorem expandPlan_depthHits (cfg : Config) (t : Ty) (p : Printer) (st : RState) :
    (expandPlan cfg t p st).2.2.depthHits = st.depthHits := by
  simp only [expandPlan]; (repeat' split) <;> simp

@[simp] theorem expandPlan_visited (cfg : Config) (t : Ty) (p : Printer) (st : RState) :
    (expandPlan cfg t p st).2.2.visited = st.visited := by
  simp only [expandPlan]; (repeat' split) <;> simp

@[simp] theorem expandPlan_depth (cfg : Config) (t : Ty) (p : Printer) (st : RState) :
    (expandPlan cfg t p st).2.1.depth = p.depth := by
  simp only [expandPlan]

@[simp] theorem closeComposite_cyc (cfg : Config) (p : Printer) (e : Bool) (i : Nat)
    (st : RState) : (closeComposite cfg p e i st).cyc = st.cyc := by
  simp only [closeComposite]; (repeat' split) <;> simp

@[simp] theorem closeComposite_depthHits (cfg : Config) (p : Printer) (e : Bool) (i : Nat)
    (st : RState) : (closeComposite cfg p e i st).depthHits = st.depthHits := by
  simp only [closeComposite]; (repeat' split) <;> simp

@[simp] theorem closeComposite_visited (cfg : Config) (p : Printer) (e : Bool) (i : Nat)
    (st : RState) : (closeComposite cfg p e i st).visited = st.visited := by
  simp only [closeComposite]; (repeat' split) <;> simp

@[simp] theorem fieldHeader_cyc (cfg : Config) (i : Nat) (e : Bool) (s : String)
    (st : RState) : (fieldHeader cfg i e s st).cyc = st.cyc := by
  simp only [fieldHeader]; (repeat' split) <;> simp

@[simp] theorem fieldHeader_depthHits (cfg : Config) (i : Nat) (e : Bool) (s : String)
    (st : RState) : (fieldHeader cfg i e s st).depthHits = st.depthHits := by
  simp only [fieldHeader]; (repeat' split) <;> simp

@[simp] theorem fieldHeader_visited (cfg : Config) (i : Nat) (e : Bool) (s : String)
    (st : RState) : (fieldHeader cfg i e s st).visited = st.visited := by
  simp only [fieldHeader]; (repeat' split) <;> simp

@[simp] theorem structMark_cyc (p : Printer) (addr : Option Nat) (t : Ty) (st : RState) :
    (structMark p addr t st).cyc = st.cyc := by
  simp only [structMark]; (repeat' split) <;> simp

@[simp] theorem structMark_depthHits (p : Printer) (addr : Option Nat) (t : Ty)
    (st : RState) : (structMark p addr t st).depthHits = st.depthHits := by
  simp only [structMark]; (repeat' split) <;> simp

@[simp] theorem cycOut_cyc (cfg : Config) (i : Nat) (t : Ty) (st : RState) :
    (cycOut cfg i t st).cyc = st.cyc + 1 := by simp [cycOut]

@[simp] theorem cycOut_depthHits (cfg : Config) (i : Nat) (t : Ty) (st : RState) :
    (cycOut cfg i t st).depthHits = st.depthHits := by simp [cycOut]

@[simp] theorem cycOut_visited (cfg : Config) (i : Nat) (t : Ty) (st : RState) :
    (cycOut cfg i t st).visited = st.visited := by simp [cycOut]

@[simp] theorem depthOut_depthHits (cfg : Config) (i : Nat) (st : RState) :
    (depthOut cfg i st).depthHits = st.depthHits + 1 := by simp [depthOut]

@[simp] theorem depthOut_cyc (cfg : Config) (i : Nat) (st : RState) :
    (depthOut cfg i st).cyc = st.cyc := by simp [depthOut]

@[simp] theorem depthOut_visited (cfg : Config) (i : Nat) (st : RState) :
    (depthOut cfg i st).visited = st.visited := by simp [depthOut]

@[simp] theorem chanOut_cyc (cfg : Config) (i : Nat) (t : Ty) (a : Nat) (sT : Bool)
    (st : RState) : (chanOut cfg i t a sT st).cyc = st.cyc := by
  simp only [chanOut]; (repeat' split) <;> simp

@[simp] theorem chanOut_depthHits (cfg : Config) (i : Nat) (t : Ty) (a : Nat) (sT : Bool)
    (st : RState) : (chanOut cfg i t a sT st).depthHits = st.depthHits := by
  simp only [chanOut]; (repeat' split) <;> simp

@[simp] theorem chanOut_visited (cfg : Config) (i : Nat) (t : Ty) (a : Nat) (sT : Bool)
    (st : RState) : (chanOut cfg i t a sT st).visited = st.visited := by
  simp only [chanOut]; (repeat' split) <;> simp

@[simp] theorem funcOut_cyc (cfg : Config) (i : Nat) (t : Ty) (st : RState) :
    (funcOut cfg i t st).cyc = st.cyc := by simp [funcOut]

@[simp] theorem funcOut_depthHits (cfg : Config) (i : Nat) (t : Ty) (st : RState) :
    (funcOut cfg i t st).depthHits = st.depthHits := by simp [funcOut]

@[simp] theorem funcOut_visited (cfg : Config) (i : Nat) (t : Ty) (st : RState) :
    (funcOut cfg i t st).visited = st.visited := by simp [funcOut]

@[simp] theorem sliceNil_cyc (cfg : Config) (i : Nat) (sT : Bool) (st : RState) :
    (sliceNil cfg i sT st).cyc = st.cyc := by
  simp only [sliceNil]; (repeat' split) <;> simp

@[simp] theorem sliceNil_depthHits (cfg : Config) (i : Nat) (sT : Bool) (st : RState) :
    (sliceNil cfg i sT st).depthHits = st.depthHits := by
  simp only [sliceNil]; (repeat' split) <;> simp

@[simp] theorem sliceNil_visited (cfg : Config) (i : Nat) (sT : Bool) (st : RState) :
    (sliceNil cfg i sT st).visited = st.visited := by
  simp only [sliceNil]; (repeat' split) <;> simp

/-! Output-length bookkeeping for every write helper: each one appends a
fixed (possibly branch-dependent) number of tokens. -/

theorem writeRaw_len (i : Nat) (s : String) (st : RState) :
    (writeRaw i s st).out.length = st.out.length + 1 := by simp

theorem flushTw_len (i : Nat) (st : RState) :
    (flushTw i st).out.length = st.out.length + 1 := by simp

theorem writeString_len (cfg : Config) (i : Nat) (s : String) (st : RState) :
    (writeString cfg i s st).out.length = st.out.length + 1 := by simp

theorem writeByte_len (cfg : Config) (i : Nat) (c : Char) (st : RState) :
    (writeByte cfg i c st).out.length
      = st.out.length + (if cfg.humanize && (c = '\x7b' || c = '\x7d') then 0 else 1) := by
  rw [writeByte_out]; split <;> simp

theorem fmtString_len (cfg : Config) (i : Nat) (s : String) (q : Bool) (st : RState) :
    (fmtString cfg i s q st).out.length = st.out.length + 1 := by
  simp [fmtString]

theorem printInline_len (cfg : Config) (i : Nat) (t l : String) (sT : Bool) (st : RState) :
    (printInline cfg i t l sT st).out.length
      = st.out.length + (if sT && !cfg.humanize then 2 else 1) := by
  simp only [printInline]; (repeat' split) <;> simp

theorem sepStruct_len (cfg : Config) (i : Nat) (e m : Bool) (st : RState) :
    (sepStruct cfg i e m st).out.length
      = st.out.length
        + (if cfg.humanize then (if newlineNeeded cfg st then 1 else 0)
           else if e then 1 else if m then 1 else 0) := by
  simp only [sepStruct]; (repeat' split) <;> simp [writeByte_len]

theorem sepMap_len (cfg : Config) (i : Nat) (e m : Bool) (st : RState) :
    (sepMap cfg i e m st).out.length
      = st.out.length
        + (if e then (if cfg.humanize then (if newlineNeeded cfg st then 1 else 0) else 1)
           else if m then 1 else 0) := by
  simp only [sepMap]; (repeat' split) <;> simp [writeByte_len]

theorem sepSlice_len (cfg : Config) (i : Nat) (e m : Bool) (st : RState) :
    (sepSlice cfg i e m st).out.length
      = st.out.length
        + (if cfg.humanize then (if newlineNeeded cfg st then 1 else 0)
           else if e then 1 else if m then 1 else 0) := by
  simp only [sepSlice]; (repeat' split) <;> simp [writeByte_len]

theorem ptrNil_len (cfg : Config) (i : Nat) (t : Ty) (st : RState) :
    (ptrNil cfg i t st).out.length = st.out.length + (if cfg.humanize then 1 else 3) := by
  simp only [ptrNil]; split <;> simp [writeByte_len] <;> split <;> simp

theorem openComposite_len (cfg : Config) (i : Nat) (sT : Bool) (t : Ty) (st : RState) :
    (openComposite cfg i sT t st).out.length
      = st.out.length + (if sT && !cfg.humanize then 1 else 0)
        + (if cfg.humanize then 0 else 1) := by
  simp only [openComposite]; (repeat' split) <;> simp_all [writeByte_len]

theorem closeComposite_len (cfg : Config) (p : Printer) (e : Bool) (i : Nat) (st : RState) :
    (closeComposite cfg p e i st).out.length
      = st.out.length + (if e then 1 else 0) + (if cfg.humanize then 0 else 1) := by
  simp only [closeComposite]; (repeat' split) <;> simp_all [writeByte_len]

theorem fieldHeader_len (cfg : Config) (i : Nat) (e : Bool) (s : String) (st : RState) :
    (fieldHeader cfg i e s st).out.length
      = st.out.length + 2 + (if e then 1 else 0) := by
  simp only [fieldHeader]; (repeat' split) <;> simp [writeByte_len]

theorem structMark_len (p : Printer) (addr : Option Nat) (t : Ty) (st : RState) :
    (structMark p addr t st).out.length = st.out.length := by
  simp only [structMark]; (repeat' split) <;> simp

theorem cycOut_len (cfg : Config) (i : Nat) (t : Ty) (st : RState) :
    (cycOut cfg i t st).out.length = st.out.length + 1 := by
  simp [cycOut, fmtString]

theorem depthOut_len (cfg : Config) (i : Nat) (st : RState) :
    (depthOut cfg i st).out.length = st.out.length + 1 := by
  simp [depthOut]

theorem chanOut_len (cfg : Config) (i : Nat) (t : Ty) (a : Nat) (sT : Bool) (st : RState) :
    (chanOut cfg i t a sT st).out.length = st.out.length + (if sT then 3 else 1) := by
  simp only [chanOut]; split <;> simp [writeByte_len]

theorem funcOut_len (cfg : Config) (i : Nat) (t : Ty) (st : RState) :
    (funcOut cfg i t st).out.length = st.out.length + 2 := by
  simp [funcOut]

theorem sliceNil_len (cfg : Config) (i : Nat) (sT : Bool) (st : RState) :
    (sliceNil cfg i sT st).out.length = st.out.length + 1 := by
  simp only [sliceNil]; split <;> simp

theorem expandPlan_snd_len (cfg : Config) (t : Ty) (p : Printer) (st : RState) :
    (expandPlan cfg t p st).2.2.out.length
      = st.out.length
        + (if (!canInline cfg t) && indentNeeded cfg st then 1 else 0) := by
  simp only [expandPlan]; (repeat' split) <;> simp_all [writeByte_len]

/-! Named, compact unfolding equations for `run`, one per branch of the
source's dispatch.  `hF cfg b` is the humanize override applied to the
`showType` and `quote` arguments on entry to `printValue`. -/

/-- The humanize override of a caller-supplied flag. -/
def hF (cfg : Config) (b : Bool) : Bool := if cfg.humanize then false else b

theorem runE_depth (H : Heap) (cfg : Config) (p : Printer) (v : Val) (sT q : Bool)
    (st : RState) (h : 10 < p.depth) :
    run H cfg (.val p v sT q) st = depthOut cfg p.ind st := by
  rw [run.eq_def]; simp only [h, dite_true, dite_false, if_true, if_false, beq_self_eq_true, Bool.false_eq_true]; try rfl

theorem runE_bool (H : Heap) (cfg : Config) (p : Printer) (b : Bool) (sT q : Bool)
    (st : RState) (h : ¬ 10 < p.depth) :
    run H cfg (.val p (.bool b) sT q) st
      = printInline cfg p.ind (tyName .bool) (cond b "true" "false") (hF cfg sT) st := by
  rw [run.eq_def]; simp only [h, hF, dite_true, dite_false, if_true, if_false, beq_self_eq_true, Bool.false_eq_true]; try rfl

theorem runE_int (H : Heap) (cfg : Config) (p : Printer) (n : Int) (sT q : Bool)
    (st : RState) (h : ¬ 10 < p.depth) :
    run H cfg (.val p (.int n) sT q) st
      = printInline cfg p.ind (tyName .int) (toString n) (hF cfg sT) st := by
  rw [run.eq_def]; simp only [h, hF, dite_true, dite_false, if_true, if_false, beq_self_eq_true, Bool.false_eq_true]; try rfl

theorem runE_uint (H : Heap) (cfg : Config) (p : Printer) (n : Nat) (sT q : Bool)
    (st : RState) (h : ¬ 10 < p.depth) :
    run H cfg (.val p (.uint n) sT q) st
      = printInline cfg p.ind (tyName .uint) (uintLit n) (hF cfg sT) st := by
  rw [run.eq_def]; simp only [h, hF, dite_true, dite_false, if_true, if_false, beq_self_eq_true, Bool.false_eq_true]; try rfl

theorem runE_float (H : Heap) (cfg : Config) (p : Printer) (lit : String) (sT q : Bool)
    (st : RState) (h : ¬ 10 < p.depth) :
    run H cfg (.val p (.float lit) sT q) st
      = printInline cfg p.ind (tyName .float) lit (hF cfg sT) st := by
  rw [run.eq_def]; simp only [h, hF, dite_true, dite_false, if_true, if_false, beq_self_eq_true, Bool.false_eq_true]; try rfl

theorem runE_complex (H : Heap) (cfg : Config) (p : Printer) (lit : String) (sT q : Bool)
    (st : RState) (h : ¬ 10 < p.depth) :
    run H cfg (.val p (.complex lit) sT q) st = writeRaw p.ind lit st := by
  rw [run.eq_def]; simp only [h, dite_true, dite_false, if_true, if_false, beq_self_eq_true, Bool.false_eq_true]; try rfl

theorem runE_str (H : Heap) (cfg : Config) (p : Printer) (s : String) (sT q : Bool)
    (st : RState) (h : ¬ 10 < p.depth) :
    run H cfg (.val p (.str s) sT q) st = fmtString cfg p.ind s (hF cfg q) st := by
  rw [run.eq_def]; simp only [h, hF, dite_true, dite_false, if_true, if_false, beq_self_eq_true, Bool.false_eq_true]; try rfl

theorem runE_map (H : Heap) (cfg : Config) (p : Printer) (t : Ty) (es : List (Val × Val))
    (sT q : Bool) (st : RState) (h : ¬ 10 < p.depth) :
    run H cfg (.val p (.map_ t es) sT q) st
      = (let st1 := openComposite cfg p.ind (hF cfg sT) t st
         if nonzero (.map_ t es) || cfg.humanize then
           let pl := expandPlan cfg t p st1
           closeComposite cfg p pl.1 pl.2.1.ind
             (run H cfg (.entries pl.2.1 pl.1 (elemIsIface t) es) pl.2.2)
         else writeByte cfg p.ind '\x7d' st1) := by
  rw [run.eq_def]; simp only [h, hF, dite_true, dite_false, if_true, if_false, beq_self_eq_true, Bool.false_eq_true]; try rfl

theorem runE_struct_cyc (H : Heap) (cfg : Config) (p : Printer) (t : Ty) (addr : Option Nat)
    (vfs : List Val) (sT q : Bool) (st : RState) (h : ¬ 10 < p.depth)
    (hc : cycHit st addr t p.depth = true) :
    run H cfg (.val p (.struct_ t addr vfs) sT q) st = cycOut cfg p.ind t st := by
  rw [run.eq_def]; simp only [h, hc, dite_true, dite_false, if_true, if_false, beq_self_eq_true, Bool.false_eq_true]; try rfl

theorem runE_struct (H : Heap) (cfg : Config) (p : Printer) (t : Ty) (addr : Option Nat)
    (vfs : List Val) (sT q : Bool) (st : RState) (h : ¬ 10 < p.depth)
    (hc : ¬ cycHit st addr t p.depth = true) :
    run H cfg (.val p (.struct_ t addr vfs) sT q) st
      = (let st1 := openComposite cfg p.ind (hF cfg sT) t (structMark p addr t st)
         if nonzero (.struct_ t addr vfs) || cfg.humanize then
           let pl := expandPlan cfg t p st1
           closeComposite cfg p pl.1 pl.2.1.ind
             (run H cfg (.fields pl.2.1 pl.1 (tyFields t) vfs) pl.2.2)
         else writeByte cfg p.ind '\x7d' st1) := by
  rw [run.eq_def]; simp only [h, hc, hF, dite_true, dite_false, if_true, if_false, beq_self_eq_true, Bool.false_eq_true]; try rfl

theorem runE_iface_nil (H : Heap) (cfg : Config) (p : Printer) (t : Ty) (sT q : Bool)
    (st : RState) (h : ¬ 10 < p.depth) :
    run H cfg (.val p (.iface t none) sT q) st = writeString cfg p.ind "nil" st := by
  rw [run.eq_def]; simp only [h, dite_true, dite_false, if_true, if_false, beq_self_eq_true, Bool.false_eq_true]; try rfl

theorem runE_iface (H : Heap) (cfg : Config) (p : Printer) (t : Ty) (ev : Val) (sT q : Bool)
    (st : RState) (h : ¬ 10 < p.depth) :
    run H cfg (.val p (.iface t (some ev)) sT q) st
      = run H cfg (.val ⟨p.ind, p.depth + 1⟩ ev (hF cfg sT) true) st := by
  rw [run.eq_def]; simp only [h, hF, dite_true, dite_false, if_true, if_false, beq_self_eq_true, Bool.false_eq_true]; try rfl

theorem runE_array (H : Heap) (cfg : Config) (p : Printer) (t : Ty) (es : List Val)
    (sT q : Bool) (st : RState) (h : ¬ 10 < p.depth) :
    run H cfg (.val p (.array t es) sT q) st
      = (let st1 := writeByte cfg p.ind '\x7b'
           (if hF cfg sT then writeString cfg p.ind (tyName t) st else st)
         let pl := expandPlan cfg t p st1
         closeComposite cfg p pl.1 pl.2.1.ind
           (run H cfg (.elems pl.2.1 pl.1 (elemIsIface t) es) pl.2.2)) := by
  rw [run.eq_def]; simp only [h, hF, dite_true, dite_false, if_true, if_false, beq_self_eq_true, Bool.false_eq_true]; try rfl

theorem runE_slice_nil (H : Heap) (cfg : Config) (p : Printer) (t : Ty) (sT q : Bool)
    (st : RState) (h : ¬ 10 < p.depth) :
    run H cfg (.val p (.slice t none) sT q) st
      = sliceNil cfg p.ind (hF cfg sT)
          (if hF cfg sT then writeString cfg p.ind (tyName t) st else st) := by
  rw [run.eq_def]; simp only [h, hF, dite_true, dite_false, if_true, if_false, beq_self_eq_true, Bool.false_eq_true]; try rfl

theorem runE_slice (H : Heap) (cfg : Config) (p : Printer) (t : Ty) (es : List Val)
    (sT q : Bool) (st : RState) (h : ¬ 10 < p.depth) :
    run H cfg (.val p (.slice t (some es)) sT q) st
      = (let st1 := writeByte cfg p.ind '\x7b'
           (if hF cfg sT then writeString cfg p.ind (tyName t) st else st)
         let pl := expandPlan cfg t p st1
         closeComposite cfg p pl.1 pl.2.1.ind
           (run H cfg (.elems pl.2.1 pl.1 (elemIsIface t) es) pl.2.2)) := by
  rw [run.eq_def]; simp only [h, hF, dite_true, dite_false, if_true, if_false, beq_self_eq_true, Bool.false_eq_true]; try rfl

theorem runE_ptr_nil (H : Heap) (cfg : Config) (p : Printer) (t : Ty) (sT q : Bool)
    (st : RState) (h : ¬ 10 < p.depth) :
    run H cfg (.val p (.ptr t none) sT q) st = ptrNil cfg p.ind t st := by
  rw [run.eq_def]; simp only [h, dite_true, dite_false, if_true, if_false, beq_self_eq_true, Bool.false_eq_true]; try rfl

theorem runE_ptr (H : Heap) (cfg : Config) (p : Printer) (t : Ty) (a : Nat) (ev : Val)
    (sT q : Bool) (st : RState) (h : ¬ 10 < p.depth) (hH : H a = some ev) :
    run H cfg (.val p (.ptr t (some a)) sT q) st
      = run H cfg (.val ⟨p.ind, p.depth + 1⟩ ev true true)
          (if !cfg.humanize then writeByte cfg p.ind '&' st else st) := by
  rw [run.eq_def]; simp only [h, hH, dite_true, dite_false, if_true, if_false, beq_self_eq_true, Bool.false_eq_true]; try rfl

theorem runE_ptr_dangling (H : Heap) (cfg : Config) (p : Printer) (t : Ty) (a : Nat)
    (sT q : Bool) (st : RState) (h : ¬ 10 < p.depth) (hH : H a = none) :
    run H cfg (.val p (.ptr t (some a)) sT q) st = ptrNil cfg p.ind t st := by
  rw [run.eq_def]; simp only [h, hH, dite_true, dite_false, if_true, if_false, beq_self_eq_true, Bool.false_eq_true]; try rfl

theorem runE_chan (H : Heap) (cfg : Config) (p : Printer) (t : Ty) (a : Nat) (sT q : Bool)
    (st : RState) (h : ¬ 10 < p.depth) :
    run H cfg (.val p (.chan t a) sT q) st = chanOut cfg p.ind t a (hF cfg sT) st := by
  rw [run.eq_def]; simp only [h, hF, dite_true, dite_false, if_true, if_false, beq_self_eq_true, Bool.false_eq_true]; try rfl

theorem runE_func (H : Heap) (cfg : Config) (p : Printer) (t : Ty) (sT q : Bool)
    (st : RState) (h : ¬ 10 < p.depth) :
    run H cfg (.val p (.func t) sT q) st = funcOut cfg p.ind t st := by
  rw [run.eq_def]; simp only [h, dite_true, dite_false, if_true, if_false, beq_self_eq_true, Bool.false_eq_true]; try rfl

theorem runE_unsafeptr (H : Heap) (cfg : Config) (p : Printer) (a : Nat) (sT q : Bool)
    (st : RState) (h : ¬ 10 < p.depth) :
    run H cfg (.val p (.unsafeptr a) sT q) st
      = printInline cfg p.ind (tyName .unsafeptr) (uintLit a) (hF cfg sT) st := by
  rw [run.eq_def]; simp only [h, hF, dite_true, dite_false, if_true, if_false, beq_self_eq_true, Bool.false_eq_true]; try rfl

theorem runE_invalid (H : Heap) (cfg : Config) (p : Printer) (sT q : Bool)
    (st : RState) (h : ¬ 10 < p.depth) :
    run H cfg (.val p .invalid sT q) st = writeString cfg p.ind "nil" st := by
  rw [run.eq_def]; simp only [h, dite_true, dite_false, if_true, if_false, beq_self_eq_true, Bool.false_eq_true]; try rfl

theorem runE_fields_nil_l (H : Heap) (cfg : Config) (pp : Printer) (e : Bool)
    (vfs : List Val) (st : RState) :
    run H cfg (.fields pp e [] vfs) st = st := by
  rw [run.eq_def]

theorem runE_fields_nil_r (H : Heap) (cfg : Config) (pp : Printer) (e : Bool)
    (tfs : List (String × String × Ty)) (st : RState) :
    run H cfg (.fields pp e tfs []) st = st := by
  cases tfs <;> (rw [run.eq_def]; try rfl)

theorem runE_fields_anon (H : Heap) (cfg : Config) (pp : Printer) (e : Bool)
    (ftag : String) (fty : Ty) (tfs' : List (String × String × Ty)) (fv : Val)
    (vfs' : List Val) (st : RState) :
    run H cfg (.fields pp e (("", ftag, fty) :: tfs') (fv :: vfs')) st
      = run H cfg (.fields pp e tfs' vfs')
          (sepStruct cfg pp.ind e (!vfs'.isEmpty)
            (run H cfg (.val pp (getField fv) (!cfg.humanize) true) st)) := by
  rw [run.eq_def]; simp only [dite_true, dite_false, if_true, if_false, beq_self_eq_true, Bool.false_eq_true]; try rfl

theorem runE_fields_dash (H : Heap) (cfg : Config) (pp : Printer) (e : Bool)
    (fname : String) (fty : Ty) (tfs' : List (String × String × Ty)) (fv : Val)
    (vfs' : List Val) (st : RState) (hn : ¬ fname = "") (hh : cfg.humanize = true) :
    run H cfg (.fields pp e ((fname, "-", fty) :: tfs') (fv :: vfs')) st
      = run H cfg (.fields pp e tfs' vfs') st := by
  have hn' : (fname == "") = false := by simpa using hn
  rw [run.eq_def]; simp only [hn', hh, dite_true, dite_false, if_true, if_false, beq_self_eq_true, Bool.false_eq_true]; try rfl

theorem runE_fields_omit (H : Heap) (cfg : Config) (pp : Printer) (e : Bool)
    (fname ftag : String) (fty : Ty) (tfs' : List (String × String × Ty)) (fv : Val)
    (vfs' : List Val) (st : RState) (hn : ¬ fname = "") (hh : cfg.humanize = true)
    (hd : ¬ ftag = "-")
    (ho : (tagContains (parseTag ftag).2 "omitempty" && isEmptyValue (getField fv)) = true) :
    run H cfg (.fields pp e ((fname, ftag, fty) :: tfs') (fv :: vfs')) st
      = run H cfg (.fields pp e tfs' vfs') st := by
  have hn' : (fname == "") = false := by simpa using hn
  have hd' : (ftag == "-") = false := by simpa using hd
  rw [run.eq_def]; simp only [hn', hh, hd', ho, dite_true, dite_false, if_true, if_false, beq_self_eq_true, Bool.false_eq_true]; try rfl

theorem runE_fields_human (H : Heap) (cfg : Config) (pp : Printer) (e : Bool)
    (fname ftag : String) (fty : Ty) (tfs' : List (String × String × Ty)) (fv : Val)
    (vfs' : List Val) (st : RState) (hn : ¬ fname = "") (hh : cfg.humanize = true)
    (hd : ¬ ftag = "-")
    (ho : ¬ (tagContains (parseTag ftag).2 "omitempty" && isEmptyValue (getField fv)) = true) :
    run H cfg (.fields pp e ((fname, ftag, fty) :: tfs') (fv :: vfs')) st
      = run H cfg (.fields pp e tfs' vfs')
          (sepStruct cfg pp.ind e (!vfs'.isEmpty)
            (run H cfg (.val pp (getField fv) false true)
              (fieldHeader cfg pp.ind e
                (if isValidTag (parseTag ftag).1 then (parseTag ftag).1 else fname) st))) := by
  have hn' : (fname == "") = false := by simpa using hn
  have hd' : (ftag == "-") = false := by simpa using hd
  rw [run.eq_def]; simp only [hn', hh, hd', ho, dite_true, dite_false, if_true, if_false, beq_self_eq_true, Bool.false_eq_true]; try rfl

theorem runE_fields_struct (H : Heap) (cfg : Config) (pp : Printer) (e : Bool)
    (fname ftag : String) (fty : Ty) (tfs' : List (String × String × Ty)) (fv : Val)
    (vfs' : List Val) (st : RState) (hn : ¬ fname = "") (hh : ¬ cfg.humanize = true) :
    run H cfg (.fields pp e ((fname, ftag, fty) :: tfs') (fv :: vfs')) st
      = run H cfg (.fields pp e tfs' vfs')
          (sepStruct cfg pp.ind e (!vfs'.isEmpty)
            (run H cfg (.val pp (getField fv) (labelType fty) true)
              (fieldHeader cfg pp.ind e fname st))) := by
  have hn' : (fname == "") = false := by simpa using hn
  rw [run.eq_def]; simp only [hn', hh, dite_true, dite_false, if_true, if_false, beq_self_eq_true, Bool.false_eq_true]; try rfl

theorem runE_entries_nil (H : Heap) (cfg : Config) (pp : Printer) (e eIfc : Bool)
    (st : RState) :
    run H cfg (.entries pp e eIfc []) st = st := by
  rw [run.eq_def]

theorem runE_entries (H : Heap) (cfg : Config) (pp : Printer) (e eIfc : Bool)
    (k mv : Val) (rest : List (Val × Val)) (st : RState) :
    run H cfg (.entries pp e eIfc ((k, mv) :: rest)) st
      = run H cfg (.entries pp e eIfc rest)
          (sepMap cfg pp.ind e (!rest.isEmpty)
            (run H cfg (.val pp mv (if !cfg.humanize then eIfc else false) true)
              (if e then writeByte cfg pp.ind '\t' (writeByte cfg pp.ind ':'
                  (run H cfg (.val pp k false true) st))
               else writeByte cfg pp.ind ':' (run H cfg (.val pp k false true) st)))) := by
  rw [run.eq_def]

theorem runE_elems_nil (H : Heap) (cfg : Config) (pp : Printer) (e eIfc : Bool)
    (st : RState) :
    run H cfg (.elems pp e eIfc []) st = st := by
  rw [run.eq_def]

theorem runE_elems (H : Heap) (cfg : Config) (pp : Printer) (e eIfc : Bool)
    (ev : Val) (rest : List Val) (st : RState) :
    run H cfg (.elems pp e eIfc (ev :: rest)) st
      = run H cfg (.elems pp e eIfc rest)
          (sepSlice cfg pp.ind e (!rest.isEmpty)
            (run H cfg (.val pp ev eIfc true) st)) := by
  rw [run.eq_def]

/-- The renderer only ever appends to the output stream. -/
theorem run_out_len (H : Heap) (cfg : Config) (j : Job) (st : RState) :
    st.out.length ≤ (run H cfg j st).out.length := by
  induction j, st using run.induct H cfg
  all_goals unfold_let at *
  all_goals try (solve
    | (rename_i tfs vfs st hno
       cases tfs with
       | nil => rw [runE_fields_nil_l]
       | cons f tfs' =>
         cases vfs with
         | nil => rw [runE_fields_nil_r]
         | cons fv vfs' => exact (hno f.1 f.2.1 f.2.2 tfs' fv vfs' rfl rfl).elim))
  all_goals
    simp_all [runE_depth, runE_bool, runE_int, runE_uint, runE_float, runE_complex,
      runE_str, runE_map, runE_struct_cyc, runE_struct, runE_iface_nil, runE_iface,
      runE_array, runE_slice_nil, runE_slice, runE_ptr_nil, runE_ptr, runE_ptr_dangling,
      runE_chan, runE_func, runE_unsafeptr, runE_invalid, runE_fields_nil_l,
      runE_fields_nil_r, runE_fields_anon, runE_fields_dash, runE_fields_omit,
      runE_fields_human, runE_fields_struct, runE_entries_nil, runE_entries,
      runE_elems_nil, runE_elems,
      writeRaw_len, flushTw_len, writeString_len, writeByte_len, fmtString_len,
      printInline_len, sepStruct_len, sepMap_len, sepSlice_len, ptrNil_len,
      openComposite_len, closeComposite_len, fieldHeader_len, structMark_len,
      cycOut_len, depthOut_len, chanOut_len, funcOut_len, sliceNil_len,
      expandPlan_snd_len, dite_eq_ite, hF]
  all_goals try omega
  all_goals
    (repeat' split) <;>
      (try simp_all [writeRaw_len, flushTw_len, writeString_len, writeByte_len, fmtString_len,
        printInline_len, sepStruct_len, sepMap_len, sepSlice_len, ptrNil_len,
        openComposite_len, closeComposite_len, fieldHeader_len, structMark_len,
        cycOut_len, depthOut_len, chanOut_len, funcOut_len, sliceNil_len,
        expandPlan_snd_len, dite_eq_ite, hF]) <;>
      omega

/-- Totality of the renderer: for every job and state there is a fuel bound
past which the fuelled mirror completes and agrees with `run`. -/
theorem run_halts (H : Heap) (cfg : Config) :
    ∀ j st, ∃ n, ∀ m, n ≤ m → runFuel H cfg m j st = some (run H cfg j st) := by
  intro j st
  induction j, st using run.induct H cfg
  all_goals unfold_let at *
  all_goals try (solve
    | (rename_i tfs vfs st hno
       refine ⟨1, fun m hm => ?_⟩
       obtain ⟨k, rfl⟩ : ∃ k, m = k + 1 := ⟨m - 1, by omega⟩
       cases tfs with
       | nil => rw [runE_fields_nil_l]; simp [runFuel]
       | cons f tfs' =>
         cases vfs with
         | nil =>
           rw [runE_fields_nil_r]
           obtain ⟨fname, ftag, fty⟩ := f
           simp [runFuel]
         | cons fv vfs' => exact (hno f.1 f.2.1 f.2.2 tfs' fv vfs' rfl rfl).elim))
  all_goals try (solve
    | (refine ⟨1, fun m hm => ?_⟩
       obtain ⟨k, rfl⟩ : ∃ k, m = k + 1 := ⟨m - 1, by omega⟩
       simp_all [runFuel, runE_depth, runE_bool, runE_int, runE_uint, runE_float, runE_complex,
         runE_str, runE_map, runE_struct_cyc, runE_struct, runE_iface_nil, runE_iface,
         runE_array, runE_slice_nil, runE_slice, runE_ptr_nil, runE_ptr, runE_ptr_dangling,
         runE_chan, runE_func, runE_unsafeptr, runE_invalid, runE_fields_nil_l,
         runE_fields_nil_r, runE_entries_nil, runE_elems_nil, dite_eq_ite, hF]))
  case case8 =>
    rename_i ih
    obtain ⟨n1, ih⟩ := ih
    refine ⟨n1 + 1, fun m hm => ?_⟩
    obtain ⟨k, rfl⟩ : ∃ k, m = k + 1 := ⟨m - 1, by omega⟩
    have h1 := ih k (by omega)
    simp_all [runFuel, runE_depth, runE_bool, runE_int, runE_uint, runE_float, runE_complex,
       runE_str, runE_map, runE_struct_cyc, runE_struct, runE_iface_nil, runE_iface,
       runE_array, runE_slice_nil, runE_slice, runE_ptr_nil, runE_ptr, runE_ptr_dangling,
       runE_chan, runE_func, runE_unsafeptr, runE_invalid, runE_fields_nil_l,
       runE_fields_nil_r, runE_fields_anon, runE_fields_dash, runE_fields_omit,
       runE_fields_human, runE_fields_struct, runE_entries_nil, runE_entries,
       runE_elems_nil, runE_elems, dite_eq_ite, hF]
    all_goals (repeat' split) <;> try rfl
    all_goals try omega
    all_goals simp_all
  case case10 =>
    rename_i ih
    obtain ⟨n1, ih⟩ := ih
    refine ⟨n1 + 1, fun m hm => ?_⟩
    obtain ⟨k, rfl⟩ : ∃ k, m = k + 1 := ⟨m - 1, by omega⟩
    have h1 := ih k (by omega)
    simp_all [runFuel, runE_depth, runE_bool, runE_int, runE_uint, runE_float, runE_complex,
       runE_str, runE_map, runE_struct_cyc, runE_struct, runE_iface_nil, runE_iface,
       runE_array, runE_slice_nil, runE_slice, runE_ptr_nil, runE_ptr, runE_ptr_dangling,
       runE_chan, runE_func, runE_unsafeptr, runE_invalid, runE_fields_nil_l,
       runE_fields_nil_r, runE_fields_anon, runE_fields_dash, runE_fields_omit,
       runE_fields_human, runE_fields_struct, runE_entries_nil, runE_entries,
       runE_elems_nil, runE_elems, dite_eq_ite, hF]
    all_goals (repeat' split) <;> try rfl
    all_goals try omega
    all_goals simp_all
  case case13 =>
    rename_i ih
    obtain ⟨n1, ih⟩ := ih
    refine ⟨n1 + 1, fun m hm => ?_⟩
    obtain ⟨k, rfl⟩ : ∃ k, m = k + 1 := ⟨m - 1, by omega⟩
    have h1 := ih k (by omega)
    simp_all [runFuel, runE_depth, runE_bool, runE_int, runE_uint, runE_float, runE_complex,
       runE_str, runE_map, runE_struct_cyc, runE_struct, runE_iface_nil, runE_iface,
       runE_array, runE_slice_nil, runE_slice, runE_ptr_nil, runE_ptr, runE_ptr_dangling,
       runE_chan, runE_func, runE_unsafeptr, runE_invalid, runE_fields_nil_l,
       runE_fields_nil_r, runE_fields_anon, runE_fields_dash, runE_fields_omit,
       runE_fields_human, runE_fields_struct, runE_entries_nil, runE_entries,
       runE_elems_nil, runE_elems, dite_eq_ite, hF]
    all_goals (repeat' split) <;> try rfl
    all_goals try omega
    all_goals simp_all
  case case14 =>
    rename_i ih
    obtain ⟨n1, ih⟩ := ih
    refine ⟨n1 + 1, fun m hm => ?_⟩
    obtain ⟨k, rfl⟩ : ∃ k, m = k + 1 := ⟨m - 1, by omega⟩
    have h1 := ih k (by omega)
    simp_all [runFuel, runE_depth, runE_bool, runE_int, runE_uint, runE_float, runE_complex,
       runE_str, runE_map, runE_struct_cyc, runE_struct, runE_iface_nil, runE_iface,
       runE_array, runE_slice_nil, runE_slice, runE_ptr_nil, runE_ptr, runE_ptr_dangling,
       runE_chan, runE_func, runE_unsafeptr, runE_invalid, runE_fields_nil_l,
       runE_fields_nil_r, runE_fields_anon, runE_fields_dash, runE_fields_omit,
       runE_fields_human, runE_fields_struct, runE_entries_nil, runE_entries,
       runE_elems_nil, runE_elems, dite_eq_ite, hF]
    all_goals (repeat' split) <;> try rfl
    all_goals try omega
    all_goals simp_all
  case case16 =>
    rename_i ih
    obtain ⟨n1, ih⟩ := ih
    refine ⟨n1 + 1, fun m hm => ?_⟩
    obtain ⟨k, rfl⟩ : ∃ k, m = k + 1 := ⟨m - 1, by omega⟩
    have h1 := ih k (by omega)
    simp_all [runFuel, runE_depth, runE_bool, runE_int, runE_uint, runE_float, runE_complex,
       runE_str, runE_map, runE_struct_cyc, runE_struct, runE_iface_nil, runE_iface,
       runE_array, runE_slice_nil, runE_slice, runE_ptr_nil, runE_ptr, runE_ptr_dangling,
       runE_chan, runE_func, runE_unsafeptr, runE_invalid, runE_fields_nil_l,
       runE_fields_nil_r, runE_fields_anon, runE_fields_dash, runE_fields_omit,
       runE_fields_human, runE_fields_struct, runE_entries_nil, runE_entries,
       runE_elems_nil, runE_elems, dite_eq_ite, hF]
    all_goals (repeat' split) <;> try rfl
    all_goals try omega
    all_goals simp_all
  case case18 =>
    rename_i ih
    obtain ⟨n1, ih⟩ := ih
    refine ⟨n1 + 1, fun m hm => ?_⟩
    obtain ⟨k, rfl⟩ : ∃ k, m = k + 1 := ⟨m - 1, by omega⟩
    have h1 := ih k (by omega)
    simp_all [runFuel, runE_depth, runE_bool, runE_int, runE_uint, runE_float, runE_complex,
       runE_str, runE_map, runE_struct_cyc, runE_struct, runE_iface_nil, runE_iface,
       runE_array, runE_slice_nil, runE_slice, runE_ptr_nil, runE_ptr, runE_ptr_dangling,
       runE_chan, runE_func, runE_unsafeptr, runE_invalid, runE_fields_nil_l,
       runE_fields_nil_r, runE_fields_anon, runE_fields_dash, runE_fields_omit,
       runE_fields_human, runE_fields_struct, runE_entries_nil, runE_entries,
       runE_elems_nil, runE_elems, dite_eq_ite, hF]
    all_goals (repeat' split) <;> try rfl
    all_goals try omega
    all_goals simp_all
  case case25 =>
    rename_i ih
    obtain ⟨n1, ih⟩ := ih
    refine ⟨n1 + 1, fun m hm => ?_⟩
    obtain ⟨k, rfl⟩ : ∃ k, m = k + 1 := ⟨m - 1, by omega⟩
    have h1 := ih k (by omega)
    simp_all [runFuel, runE_depth, runE_bool, runE_int, runE_uint, runE_float, runE_complex,
       runE_str, runE_map, runE_struct_cyc, runE_struct, runE_iface_nil, runE_iface,
       runE_array, runE_slice_nil, runE_slice, runE_ptr_nil, runE_ptr, runE_ptr_dangling,
       runE_chan, runE_func, runE_unsafeptr, runE_invalid, runE_fields_nil_l,
       runE_fields_nil_r, runE_fields_anon, runE_fields_dash, runE_fields_omit,
       runE_fields_human, runE_fields_struct, runE_entries_nil, runE_entries,
       runE_elems_nil, runE_elems, dite_eq_ite, hF]
    all_goals (repeat' split) <;> try rfl
    all_goals try omega
    all_goals simp_all
  case case26 =>
    rename_i ih
    obtain ⟨n1, ih⟩ := ih
    refine ⟨n1 + 1, fun m hm => ?_⟩
    obtain ⟨k, rfl⟩ : ∃ k, m = k + 1 := ⟨m - 1, by omega⟩
    have h1 := ih k (by omega)
    simp_all [runFuel, runE_depth, runE_bool, runE_int, runE_uint, runE_float, runE_complex,
       runE_str, runE_map, runE_struct_cyc, runE_struct, runE_iface_nil, runE_iface,
       runE_array, runE_slice_nil, runE_slice, runE_ptr_nil, runE_ptr, runE_ptr_dangling,
       runE_chan, runE_func, runE_unsafeptr, runE_invalid, runE_fields_nil_l,
       runE_fields_nil_r, runE_fields_anon, runE_fields_dash, runE_fields_omit,
       runE_fields_human, runE_fields_struct, runE_entries_nil, runE_entries,
       runE_elems_nil, runE_elems, dite_eq_ite, hF]
    all_goals (repeat' split) <;> try rfl
    all_goals try omega
    all_goals simp_all
  case case24 =>
    rename_i ihA ihB
    obtain ⟨n1, ihA⟩ := ihA
    obtain ⟨n2, ihB⟩ := ihB
    refine ⟨n1 + n2 + 1, fun m hm => ?_⟩
    obtain ⟨k, rfl⟩ : ∃ k, m = k + 1 := ⟨m - 1, by omega⟩
    have h1 := ihA k (by omega)
    have h2 := ihB k (by omega)
    simp_all [runFuel, runE_depth, runE_bool, runE_int, runE_uint, runE_float, runE_complex,
       runE_str, runE_map, runE_struct_cyc, runE_struct, runE_iface_nil, runE_iface,
       runE_array, runE_slice_nil, runE_slice, runE_ptr_nil, runE_ptr, runE_ptr_dangling,
       runE_chan, runE_func, runE_unsafeptr, runE_invalid, runE_fields_nil_l,
       runE_fields_nil_r, runE_fields_anon, runE_fields_dash, runE_fields_omit,
       runE_fields_human, runE_fields_struct, runE_entries_nil, runE_entries,
       runE_elems_nil, runE_elems, dite_eq_ite, hF]
    all_goals (repeat' split) <;> try rfl
    all_goals try omega
    all_goals simp_all
  case case33 =>
    rename_i ihA ihB
    obtain ⟨n1, ihA⟩ := ihA
    obtain ⟨n2, ihB⟩ := ihB
    refine ⟨n1 + n2 + 1, fun m hm => ?_⟩
    obtain ⟨k, rfl⟩ : ∃ k, m = k + 1 := ⟨m - 1, by omega⟩
    have h1 := ihA k (by omega)
    have h2 := ihB k (by omega)
    simp_all [runFuel, runE_depth, runE_bool, runE_int, runE_uint, runE_float, runE_complex,
       runE_str, runE_map, runE_struct_cyc, runE_struct, runE_iface_nil, runE_iface,
       runE_array, runE_slice_nil, runE_slice, runE_ptr_nil, runE_ptr, runE_ptr_dangling,
       runE_chan, runE_func, runE_unsafeptr, runE_invalid, runE_fields_nil_l,
       runE_fields_nil_r, runE_fields_anon, runE_fields_dash, runE_fields_omit,
       runE_fields_human, runE_fields_struct, runE_entries_nil, runE_entries,
       runE_elems_nil, runE_elems, dite_eq_ite, hF]
    all_goals (repeat' split) <;> try rfl
    all_goals try omega
    all_goals simp_all
  case case27 =>
    rename_i ihA ihB ihC
    obtain ⟨n1, ihA⟩ := ihA
    obtain ⟨n2, ihB⟩ := ihB
    obtain ⟨n3, ihC⟩ := ihC
    refine ⟨n1 + n2 + n3 + 1, fun m hm => ?_⟩
    obtain ⟨k, rfl⟩ : ∃ k, m = k + 1 := ⟨m - 1, by omega⟩
    have h1 := ihA k (by omega)
    have h2 := ihB k (by omega)
    have h3 := ihC k (by omega)
    simp_all [runFuel, runE_depth, runE_bool, runE_int, runE_uint, runE_float, runE_complex,
       runE_str, runE_map, runE_struct_cyc, runE_struct, runE_iface_nil, runE_iface,
       runE_array, runE_slice_nil, runE_slice, runE_ptr_nil, runE_ptr, runE_ptr_dangling,
       runE_chan, runE_func, runE_unsafeptr, runE_invalid, runE_fields_nil_l,
       runE_fields_nil_r, runE_fields_anon, runE_fields_dash, runE_fields_omit,
       runE_fields_human, runE_fields_struct, runE_entries_nil, runE_entries,
       runE_elems_nil, runE_elems, dite_eq_ite, hF]
    all_goals (repeat' split) <;> try rfl
    all_goals try omega
    all_goals simp_all
  case case28 =>
    rename_i ihA ihB ihC
    obtain ⟨n1, ihA⟩ := ihA
    obtain ⟨n2, ihB⟩ := ihB
    obtain ⟨n3, ihC⟩ := ihC
    refine ⟨n1 + n2 + n3 + 1, fun m hm => ?_⟩
    obtain ⟨k, rfl⟩ : ∃ k, m = k + 1 := ⟨m - 1, by omega⟩
    have h1 := ihA k (by omega)
    have h2 := ihB k (by omega)
    have h3 := ihC k (by omega)
    simp_all [runFuel, runE_depth, runE_bool, runE_int, runE_uint, runE_float, runE_complex,
       runE_str, runE_map, runE_struct_cyc, runE_struct, runE_iface_nil, runE_iface,
       runE_array, runE_slice_nil, runE_slice, runE_ptr_nil, runE_ptr, runE_ptr_dangling,
       runE_chan, runE_func, runE_unsafeptr, runE_invalid, runE_fields_nil_l,
       runE_fields_nil_r, runE_fields_anon, runE_fields_dash, runE_fields_omit,
       runE_fields_human, runE_fields_struct, runE_entries_nil, runE_entries,
       runE_elems_nil, runE_elems, dite_eq_ite, hF]
    all_goals (repeat' split) <;> try rfl
    all_goals try omega
    all_goals simp_all
  case case31 =>
    rename_i ihA ihB ihC j1 j2 ihD
    clear j1 j2 ihB
    obtain ⟨n1, ihA⟩ := ihA
    obtain ⟨n2, ihC⟩ := ihC
    obtain ⟨n3, ihD⟩ := ihD
    refine ⟨n1 + n2 + n3 + 1, fun m hm => ?_⟩
    obtain ⟨k, rfl⟩ : ∃ k, m = k + 1 := ⟨m - 1, by omega⟩
    have h1 := ihA k (by omega)
    have h2 := ihC k (by omega)
    have h3 := ihD k (by omega)
    simp_all [runFuel, runE_depth, runE_bool, runE_int, runE_uint, runE_float, runE_complex,
       runE_str, runE_map, runE_struct_cyc, runE_struct, runE_iface_nil, runE_iface,
       runE_array, runE_slice_nil, runE_slice, runE_ptr_nil, runE_ptr, runE_ptr_dangling,
       runE_chan, runE_func, runE_unsafeptr, runE_invalid, runE_fields_nil_l,
       runE_fields_nil_r, runE_fields_anon, runE_fields_dash, runE_fields_omit,
       runE_fields_human, runE_fields_struct, runE_entries_nil, runE_entries,
       runE_elems_nil, runE_elems, dite_eq_ite, hF]
    all_goals (repeat' split) <;> try rfl
    all_goals try omega
    all_goals simp_all


theorem getField_of_refFree (v : Val) (h : refFree v = true) : getField v = v := by
  cases v with
  | iface t e => simp [refFree] at h
  | _ => simp [getField]

theorem run_refFree (H : Heap) (cfg : Config) :
    ∀ j st,
      (match j with
       | .val p v _ _ => refFree v = true ∧ p.depth ≤ 10
       | .fields pp _ _ vfs => refFreeList vfs = true ∧ pp.depth ≤ 10
       | .entries pp _ _ es => refFreePairs es = true ∧ pp.depth ≤ 10
       | .elems pp _ _ vs => refFreeList vs = true ∧ pp.depth ≤ 10) →
      (run H cfg j st).depthHits = st.depthHits := by
  intro j st
  induction j, st using run.induct H cfg
  all_goals unfold_let at *
  all_goals try (solve
    | (rename_i tfs vfs st hno
       intro h
       cases tfs with
       | nil => rw [runE_fields_nil_l]
       | cons f tfs' =>
         cases vfs with
         | nil => rw [runE_fields_nil_r]
         | cons fv vfs' => exact (hno f.1 f.2.1 f.2.2 tfs' fv vfs' rfl rfl).elim))
  all_goals
    simp_all [runE_depth, runE_bool, runE_int, runE_uint, runE_float, runE_complex,
      runE_str, runE_map, runE_struct_cyc, runE_struct, runE_iface_nil, runE_iface,
      runE_array, runE_slice_nil, runE_slice, runE_ptr_nil, runE_ptr, runE_ptr_dangling,
      runE_chan, runE_func, runE_unsafeptr, runE_invalid, runE_fields_nil_l,
      runE_fields_nil_r, runE_fields_anon, runE_fields_dash, runE_fields_omit,
      runE_fields_human, runE_fields_struct, runE_entries_nil, runE_entries,
      runE_elems_nil, runE_elems, refFree, refFreeList, refFreePairs,
      getField_of_refFree, dite_eq_ite, hF]
  all_goals try omega
  all_goals intros
  all_goals try simp_all [runE_depth, runE_bool, runE_int, runE_uint, runE_float, runE_complex,
    runE_str, runE_map, runE_struct_cyc, runE_struct, runE_iface_nil, runE_iface,
    runE_array, runE_slice_nil, runE_slice, runE_ptr_nil, runE_ptr, runE_ptr_dangling,
    runE_chan, runE_func, runE_unsafeptr, runE_invalid, runE_fields_nil_l,
    runE_fields_nil_r, runE_fields_anon, runE_fields_dash, runE_fields_omit,
    runE_fields_human, runE_fields_struct, runE_entries_nil, runE_entries,
    runE_elems_nil, runE_elems, refFree, refFreeList, refFreePairs,
    getField_of_refFree, dite_eq_ite, hF]
  all_goals (repeat' split) <;> simp_all


/-- In humanize mode the caller-supplied `showType` and `quote` arguments
are irrelevant: `printValue` overrides both to `false` on entry. -/
theorem run_flags_irrelevant_humanize (H : Heap) (cfg : Config) (p : Printer) (v : Val)
    (sT q sT' q' : Bool) (st : RState) (hh : cfg.humanize = true) :
    run H cfg (.val p v sT q) st = run H cfg (.val p v sT' q') st := by
  by_cases hd : 10 < p.depth
  · rw [runE_depth _ _ _ _ _ _ _ hd, runE_depth _ _ _ _ _ _ _ hd]
  · have hf : ∀ b b' : Bool, hF cfg b = hF cfg b' := by intro b b'; simp [hF, hh]
    cases v with
    | bool b => rw [runE_bool _ _ _ _ _ _ _ hd, runE_bool _ _ _ _ _ _ _ hd, hf sT sT']
    | int n => rw [runE_int _ _ _ _ _ _ _ hd, runE_int _ _ _ _ _ _ _ hd, hf sT sT']
    | uint n => rw [runE_uint _ _ _ _ _ _ _ hd, runE_uint _ _ _ _ _ _ _ hd, hf sT sT']
    | float l => rw [runE_float _ _ _ _ _ _ _ hd, runE_float _ _ _ _ _ _ _ hd, hf sT sT']
    | complex l => rw [runE_complex _ _ _ _ _ _ _ hd, runE_complex _ _ _ _ _ _ _ hd]
    | str s => rw [runE_str _ _ _ _ _ _ _ hd, runE_str _ _ _ _ _ _ _ hd, hf q q']
    | map_ t es => rw [runE_map _ _ _ _ _ _ _ _ hd, runE_map _ _ _ _ _ _ _ _ hd, hf sT sT']
    | struct_ t addr vfs =>
      by_cases hc : cycHit st addr t p.depth = true
      · rw [runE_struct_cyc _ _ _ _ _ _ _ _ _ hd hc,
          runE_struct_cyc _ _ _ _ _ _ _ _ _ hd hc]
      · rw [runE_struct _ _ _ _ _ _ _ _ _ hd hc, runE_struct _ _ _ _ _ _ _ _ _ hd hc,
          hf sT sT']
    | iface t e =>
      cases e with
      | none => rw [runE_iface_nil _ _ _ _ _ _ _ hd, runE_iface_nil _ _ _ _ _ _ _ hd]
      | some ev => rw [runE_iface _ _ _ _ _ _ _ _ hd, runE_iface _ _ _ _ _ _ _ _ hd, hf sT sT']
    | array t es => rw [runE_array _ _ _ _ _ _ _ _ hd, runE_array _ _ _ _ _ _ _ _ hd, hf sT sT']
    | slice t es =>
      cases es with
      | none => rw [runE_slice_nil _ _ _ _ _ _ _ hd, runE_slice_nil _ _ _ _ _ _ _ hd, hf sT sT']
      | some l => rw [runE_slice _ _ _ _ _ _ _ _ hd, runE_slice _ _ _ _ _ _ _ _ hd, hf sT sT']
    | ptr t tgt =>
      cases tgt with
      | none => rw [runE_ptr_nil _ _ _ _ _ _ _ hd, runE_ptr_nil _ _ _ _ _ _ _ hd]
      | some a =>
        cases hH : H a with
        | none =>
          rw [runE_ptr_dangling _ _ _ _ _ _ _ _ hd hH,
            runE_ptr_dangling _ _ _ _ _ _ _ _ hd hH]
        | some ev =>
          rw [runE_ptr _ _ _ _ _ _ _ _ _ hd hH, runE_ptr _ _ _ _ _ _ _ _ _ hd hH]
    | chan t a => rw [runE_chan _ _ _ _ _ _ _ _ hd, runE_chan _ _ _ _ _ _ _ _ hd, hf sT sT']
    | func t => rw [runE_func _ _ _ _ _ _ _ hd, runE_func _ _ _ _ _ _ _ hd]
    | unsafeptr a =>
      rw [runE_unsafeptr _ _ _ _ _ _ _ hd, runE_unsafeptr _ _ _ _ _ _ _ hd, hf sT sT']
    | invalid => rw [runE_invalid _ _ _ _ _ _ hd, runE_invalid _ _ _ _ _ _ hd]

/-- **C7.** For every static type, in structured mode, the inlinability
classifier agrees with the spec's policy: a Record is inlinable iff none of
its field types are expandable; a Map or Sequence (array or slice) is
inlinable iff its element type is not expandable; TaggedUnion,
OwningReference, Channel and Function types are never inlinable — where
"expandable" (the code's `canExpand`) holds exactly for the Map, Record,
TaggedUnion, Sequence and OwningReference kinds, one static level deep. -/
theorem c7_canInline_spec (cfg : Config) (hh : cfg.humanize = false) :
    (∀ n fs, canInline cfg (.struct_ n fs)
        = !(fs.any fun f => specExpandable f.2.2))
    ∧ (∀ n e, canInline cfg (.map_ n e) = !specExpandable e)
    ∧ (∀ n e, canInline cfg (.array n e) = !specExpandable e)
    ∧ (∀ n e, canInline cfg (.slice n e) = !specExpandable e)
    ∧ (∀ n, canInline cfg (.iface n) = false)
    ∧ (∀ n, canInline cfg (.ptr n) = false)
    ∧ (∀ n, canInline cfg (.chan n) = false)
    ∧ (∀ n, canInline cfg (.func n) = false)
    ∧ (∀ t, canExpand t = specExpandable t) := by
  have hce : ∀ t, canExpand t = specExpandable t := by intro t; cases t <;> rfl
  refine ⟨?_, ?_, ?_, ?_, ?_, ?_, ?_, ?_, hce⟩
  · intro n fs
    simp only [canInline, hh, Bool.false_eq_true, if_false, hce]
  · intro n e; simp only [canInline, hh, Bool.false_eq_true, if_false, hce]
  · intro n e; simp only [canInline, hh, Bool.false_eq_true, if_false, hce]
  · intro n e; simp only [canInline, hh, Bool.false_eq_true, if_false, hce]
  · intro n; simp [canInline, hh]
  · intro n; simp [canInline, hh]
  · intro n; simp [canInline, hh]
  · intro n; simp [canInline, hh]

/-- Witness for `c7_canInline_spec` at a concrete structured configuration. -/
theorem c7_canInline_spec_witness :
    canInline { humanize := false, newlineAfterItems := false } (.iface "error") = false :=
  (c7_canInline_spec { humanize := false, newlineAfterItems := false } rfl).2.2.2.2.1 "error"

/-- Rendering a chain of `k` nested pointers entered at depth `d` bumps the
depth-sentinel counter exactly once if the chain drives the depth counter
past 10 (`d + k > 10`), and not at all otherwise. -/
theorem chain_depthHits (cfg : Config) (k : Nat) :
    ∀ (d i : Nat) (sT q : Bool) (st : RState),
      (run chainHeap cfg (.val ⟨i, d⟩ (chainVal k) sT q) st).depthHits
        = st.depthHits + (if d + k ≤ 10 then 0 else 1) := by
  induction k with
  | zero =>
    intro d i sT q st
    by_cases hd : 10 < (⟨i, d⟩ : Printer).depth
    · rw [runE_depth _ _ _ _ _ _ _ hd]
      simp only [show ((⟨i, d⟩ : Printer).depth = d) from rfl] at hd
      rw [if_neg (by omega : ¬ d + 0 ≤ 10)]
      simp
    · simp only [show ((⟨i, d⟩ : Printer).depth = d) from rfl] at hd
      rw [show chainVal 0 = .int 7 from rfl, runE_int _ _ _ _ _ _ _ (by simpa using hd)]
      rw [if_pos (by omega : d + 0 ≤ 10)]
      simp
  | succ k ih =>
    intro d i sT q st
    by_cases hd : 10 < (⟨i, d⟩ : Printer).depth
    · rw [runE_depth _ _ _ _ _ _ _ hd]
      simp only [show ((⟨i, d⟩ : Printer).depth = d) from rfl] at hd
      rw [if_neg (by omega : ¬ d + (k + 1) ≤ 10)]
      simp
    · rw [show chainVal (k + 1) = .ptr (.ptr "*int") (some k) from rfl,
        runE_ptr _ _ _ _ _ _ _ _ _ hd (show chainHeap k = some (chainVal k) from rfl)]
      rw [show ((⟨i, d⟩ : Printer).ind = i) from rfl,
        show ((⟨i, d⟩ : Printer).depth = d) from rfl]
      rw [ih (d + 1) i true true _]
      have hsp : (if !cfg.humanize then writeByte cfg i '&' st else st).depthHits
          = st.depthHits := by split <;> simp
      rw [hsp]
      by_cases h10 : d + 1 + k ≤ 10
      · rw [if_pos h10, if_pos (by omega : d + (k + 1) ≤ 10)]
      · rw [if_neg h10, if_neg (by omega : ¬ d + (k + 1) ≤ 10)]

/-- **C2.** `printValue` emits the depth-exceeded sentinel
`"!%v(DEPTH EXCEEDED)"` (and returns without recursing) exactly when its
depth counter exceeds 10 on entry: (1) whenever the depth counter is above
10 on entry the call reduces to writing the sentinel, bumping the sentinel
counter once; (2) rendering a record/value behind `n` owning-reference
levels from the top emits the sentinel exactly when `n` exceeds 10 — levels
1 through 10 render normally (no sentinel), the 11th indirection level and
deeper produce exactly one sentinel. -/
theorem c2_depth_sentinel :
    (∀ (H : Heap) (cfg : Config) (p : Printer) (v : Val) (sT q : Bool) (st : RState),
        10 < p.depth →
          run H cfg (.val p v sT q) st
            = writeString cfg p.ind "!%v(DEPTH EXCEEDED)"
                { st with depthHits := st.depthHits + 1 })
    ∧ (∀ (cfg : Config) (q : Bool) (curr : String) (saw n : Nat),
        (renderTop chainHeap cfg (chainVal n) q curr saw).depthHits
          = if n ≤ 10 then 0 else 1) := by
  constructor
  · intro H cfg p v sT q st hd
    rw [runE_depth _ _ _ _ _ _ _ hd]
    rfl
  · intro cfg q curr saw n
    simp only [renderTop, flushTw_depthHits]
    rw [chain_depthHits cfg n 0 0 true q]
    simp

/-- Witness for `c2_depth_sentinel`: the guard fires at depth 11, and the
12-pointer chain yields exactly one sentinel while a 3-pointer chain yields
none. -/
theorem c2_depth_sentinel_witness :
    (run emptyHeap structuredCfg (.val ⟨0, 11⟩ (.int 7) true true)
        ⟨[], "", 0, [], 0, 0⟩
      = writeString structuredCfg 0 "!%v(DEPTH EXCEEDED)"
          { (⟨[], "", 0, [], 0, 0⟩ : RState) with depthHits := (0 : Nat) + 1 })
    ∧ (renderTop chainHeap structuredCfg (chainVal 12) true "" 0).depthHits
        = (if 12 ≤ 10 then 0 else 1)
    ∧ (renderTop chainHeap structuredCfg (chainVal 3) true "" 0).depthHits
        = (if 3 ≤ 10 then 0 else 1) := by
  refine ⟨?_, ?_, ?_⟩
  · exact c2_depth_sentinel.1 emptyHeap structuredCfg ⟨0, 11⟩ (.int 7) true true _ (by decide)
  · exact c2_depth_sentinel.2 structuredCfg true "" 0 12
  · exact c2_depth_sentinel.2 structuredCfg true "" 0 3

/-- Rendering a pointer back to an address whose `(addr, type)` key is
already in the visited set at depth 0 emits exactly one cyclic-reference
sentinel. -/
theorem cyc_ptr_back (H : Heap) (cfg : Config) (t pt : Ty) (a : Nat) (vfs : List Val)
    (pp : Printer) (st : RState) (sT q : Bool)
    (hd : pp.depth = 0) (hv : visLookup st.visited a t = some 0) (hc : st.cyc = 0)
    (hH : H a = some (.struct_ t (some a) vfs)) :
    (run H cfg (.val pp (.ptr pt (some a)) sT q) st).cyc = 1 := by
  rw [runE_ptr _ _ _ _ _ _ _ _ _ (show ¬ 10 < pp.depth by omega) hH]
  have h1 : ¬ 10 < (⟨pp.ind, pp.depth + 1⟩ : Printer).depth := by simp [hd]
  have hvi : (if !cfg.humanize then writeByte cfg pp.ind '&' st else st).visited
      = st.visited := by split <;> simp
  have hcy : cycHit (if !cfg.humanize then writeByte cfg pp.ind '&' st else st)
      (some a) t (⟨pp.ind, pp.depth + 1⟩ : Printer).depth = true := by
    simp only [cycHit, hvi, hv, hd]
    simp
  rw [runE_struct_cyc _ _ _ _ _ _ _ _ _ h1 hcy]
  have hcc : (if !cfg.humanize then writeByte cfg pp.ind '&' st else st).cyc = st.cyc := by
    split <;> simp
  simp only [cycOut_cyc, hcc, hc]

/-- Rendering a single-field field list whose field value is a pointer back
to a visited address emits exactly one cyclic-reference sentinel, in either
mode (the field is not named `""`, and its tag is not the suppressing
`"-"`). -/
theorem cyc_fields_single (H : Heap) (cfg : Config) (pp : Printer) (e : Bool)
    (fname ftag : String) (fty t pt : Ty) (a : Nat) (vfs : List Val) (st : RState)
    (hfn : ¬ fname = "") (htag : ¬ ftag = "-")
    (hd : pp.depth = 0) (hv : visLookup st.visited a t = some 0) (hc : st.cyc = 0)
    (hH : H a = some (.struct_ t (some a) vfs)) :
    (run H cfg (.fields pp e [(fname, ftag, fty)] [.ptr pt (some a)]) st).cyc = 1 := by
  by_cases hh : cfg.humanize = true
  · rw [runE_fields_human _ _ _ _ _ _ _ _ _ _ _ hfn hh htag
      (by simp [isEmptyValue, getField])]
    rw [runE_fields_nil_l]
    simp only [sepStruct_cyc, getField]
    exact cyc_ptr_back H cfg t pt a vfs pp _ _ _ hd (by simp [hv]) (by simp [hc]) hH
  · rw [runE_fields_struct _ _ _ _ _ _ _ _ _ _ _ hfn hh]
    rw [runE_fields_nil_l]
    simp only [sepStruct_cyc, getField]
    exact cyc_ptr_back H cfg t pt a vfs pp _ _ _ hd (by simp [hv]) (by simp [hc]) hH

theorem selfLike_cyc (H : Heap) (cfg : Config) (sname fname ftag pname : String)
    (a : Nat) (q : Bool) (curr : String) (saw : Nat)
    (hfn : ¬ fname = "") (htag : ¬ ftag = "-")
    (hH : H a = some (selfLike sname fname ftag pname a)) :
    (renderTop H cfg (selfLike sname fname ftag pname a) q curr saw).cyc = 1 := by
  have hH' : H a = some (Val.struct_ (Ty.struct_ sname [(fname, ftag, Ty.ptr pname)]) (some a)
      [Val.ptr (Ty.ptr pname) (some a)]) := by simpa [selfLike] using hH
  have h0 : ¬ 10 < (⟨0, 0⟩ : Printer).depth := by simp
  have hc0 : ¬ cycHit
      { out := ([] : List Tok), curr := curr, sawClose := saw, visited := [],
        cyc := 0, depthHits := 0 }
      (some a) (Ty.struct_ sname [(fname, ftag, Ty.ptr pname)])
      (⟨0, 0⟩ : Printer).depth = true := by
    simp [cycHit, visLookup]
  simp only [renderTop, flushTw_cyc, selfLike]
  rw [runE_struct _ _ _ _ _ _ _ _ _ h0 hc0]
  have hnz : (nonzero (Val.struct_ (Ty.struct_ sname [(fname, ftag, Ty.ptr pname)]) (some a)
      [Val.ptr (Ty.ptr pname) (some a)]) || cfg.humanize) = true := by
    simp [nonzero, nonzeroAny]
  simp only [hnz, if_true, closeComposite_cyc, tyFields]
  apply cyc_fields_single H cfg _ _ fname ftag (Ty.ptr pname)
      (Ty.struct_ sname [(fname, ftag, Ty.ptr pname)]) (Ty.ptr pname) a
      [Val.ptr (Ty.ptr pname) (some a)] _ hfn htag
  · simp
  · simp [structMark, visInsert, visLookup, tyBEq, tyFieldsBEq, List.find?]
  · simp [structMark, visInsert]
  · exact hH'

/-- **C3.** For every self-referential record — a record value whose single
field is an owning pointer back to the record's own address (any declared
record name, any non-empty field name, any field tag other than the
suppressing `"-"`) — rendering terminates and detects the cycle exactly
once: (1) in both structured and humanize mode the cyclic-reference
sentinel counter of the render is exactly 1; (2) the recursion completes on
finite fuel, agreeing with the total renderer (it never loops); (3) on the
concrete self-referential fixture the structured output is exactly
`pretty.R\x7b\nSelf:\t&pretty.R\x7b(CYCLIC REFERENCE)\x7d,\n\x7d`: the single
sentinel names the cycling record's declared type at the point the cycle is
detected. -/
theorem c3_cycle_sentinel :
    (∀ (H : Heap) (cfg : Config) (sname fname ftag pname : String) (a : Nat)
        (q : Bool) (curr : String) (saw : Nat),
        ¬ fname = "" → ¬ ftag = "-" →
        H a = some (selfLike sname fname ftag pname a) →
        (renderTop H cfg (selfLike sname fname ftag pname a) q curr saw).cyc = 1)
    ∧ (∀ (H : Heap) (cfg : Config) (sname fname ftag pname : String) (a : Nat)
        (q : Bool) (curr : String) (saw : Nat),
        ∃ n, ∀ m, n ≤ m →
          renderTopFuel H cfg m (selfLike sname fname ftag pname a) q curr saw
            = some (renderTop H cfg (selfLike sname fname ftag pname a) q curr saw))
    ∧ outString (renderTop selfHeap structuredCfg selfVal true "" 0).out
        = "pretty.R\x7b\nSelf:\t&pretty.R\x7b(CYCLIC REFERENCE)\x7d,\n\x7d" := by
  refine ⟨fun H cfg sname fname ftag pname a q curr saw hfn htag hH =>
      selfLike_cyc H cfg sname fname ftag pname a q curr saw hfn htag hH,
    fun H cfg sname fname ftag pname a q curr saw => ?_, ?_⟩
  · obtain ⟨n, hn⟩ := run_halts H cfg
      (.val ⟨0, 0⟩ (selfLike sname fname ftag pname a) true q)
      { out := [], curr := curr, sawClose := saw, visited := [], cyc := 0, depthHits := 0 }
    exact ⟨n, fun m hm => by
      simp only [renderTopFuel, renderTop, hn m hm, Option.some_bind]⟩
  · simp [renderTop, selfVal, selfTy, selfHeap, structuredCfg,
      runE_struct, runE_struct_cyc, runE_ptr, runE_fields_struct, runE_fields_nil_l,
      cycHit, visLookup, structMark, visInsert, openComposite, expandPlan, closeComposite,
      fieldHeader, sepStruct, canInline, canExpand, nonzero, nonzeroAny, indentNeeded,
      newlineNeeded, labelType, tyFields, tyName, tyBEq, tyFieldsBEq, hF, writeString,
      writeByte, writeRaw, flushTw, printInline, fmtString, getField, outString, lastLine,
      allSpace, String.join, List.find?, cycOut]
    decide

/-- Witness for `c3_cycle_sentinel`: the concrete self-referential fixture
(`selfHeap` address 7) in humanize mode has cyclic-sentinel count exactly
1. -/
theorem c3_cycle_sentinel_witness :
    (¬ "Self" = "") ∧ (¬ ("" : String) = "-")
    ∧ selfHeap 7 = some (selfLike "pretty.R" "Self" "" "*pretty.R" 7)
    ∧ (renderTop selfHeap humanizeCfg (selfLike "pretty.R" "Self" "" "*pretty.R" 7)
        true "" 0).cyc = 1 :=
  ⟨by decide, by decide, rfl,
    c3_cycle_sentinel.1 selfHeap humanizeCfg "pretty.R" "Self" "" "*pretty.R" 7 true "" 0
      (by decide) (by decide) rfl⟩

/-- **C9.** For every input value whose structure contains no owning
reference (pointer) and no tagged union (interface) along any path — built
purely from records, maps, sequences and scalars — the depth counter never
passes the cap during `printValue`, so the depth-exceeded sentinel is never
emitted, no matter how deep the structural nesting. -/
theorem c9_no_depth_sentinel (H : Heap) (cfg : Config) (v : Val) (q : Bool)
    (curr : String) (saw : Nat) (hrf : refFree v = true) :
    (renderTop H cfg v q curr saw).depthHits = 0 := by
  simp only [renderTop, flushTw_depthHits]
  rw [run_refFree H cfg (.val ⟨0, 0⟩ v true q) _ ⟨hrf, by simp⟩]

/-- Witness for `c9_no_depth_sentinel`: a reference-free value nested 15
structural levels deep renders without a depth sentinel. -/
theorem c9_no_depth_sentinel_witness :
    refFree (deepVal 15) = true
    ∧ (renderTop emptyHeap structuredCfg (deepVal 15) true "" 0).depthHits = 0 :=
  ⟨by decide,
    c9_no_depth_sentinel emptyHeap structuredCfg (deepVal 15) true "" 0 (by decide)⟩

/-- On the self-containing map, the fuelled reference-map renderer never
completes: entered at any depth within the cap, both the map render and any
entries loop whose head entry holds the self-map run out of any amount of
fuel (the recursion re-renders the same map at the same depth forever). -/
theorem runFuelX_selfMap_none (cfg : Config) :
    ∀ n : Nat,
      (∀ (p : Printer) (sT q : Bool) (st : RState), p.depth ≤ 10 →
        runFuelX selfMapHeapX cfg n (.val p (.mapRef selfMapTy 0) sT q) st = none)
      ∧ (∀ (pp : Printer) (e eIfc : Bool) (rest : List (XVal × XVal)) (st : RState),
          pp.depth ≤ 10 →
          runFuelX selfMapHeapX cfg n
            (.entries pp e eIfc ((.str "x", .mapRef selfMapTy 0) :: rest)) st = none) := by
  intro n
  induction n with
  | zero => exact ⟨fun _ _ _ _ _ => rfl, fun _ _ _ _ _ _ => rfl⟩
  | succ n ih =>
    constructor
    · intro p sT q st hd
      simp only [runFuelX]
      rw [if_neg (by omega)]
      have h0 : selfMapHeapX 0 = [(.str "x", .mapRef selfMapTy 0)] := rfl
      simp only [h0]
      rw [ih.2 _ _ _ _ _ (by simp [hd])]
      simp
    · intro pp e eIfc rest st hd
      simp only [runFuelX]
      cases hk : runFuelX selfMapHeapX cfg n (.val pp (.str "x") false true) st with
      | none => simp [hk]
      | some st1 =>
        simp only [hk, Option.some_bind]
        rw [ih.1 pp _ _ _ hd]
        simp

/-- **C4.** The claim — every top-level render call terminates for every
input value, cyclic or not — is right about the intent but wrong about the
code: a cycle that closes through map reference semantics (`type M
map[string]M` with `m["x"] = m`) never passes a pointer or interface, so
the Map case of `printValue` recurses into the same map at the same depth,
with no depth increment and no visited check, forever.  Formally: on the
self-containing map, the fuelled render completes under no amount of fuel,
in any configuration. -/
theorem c4_map_cycle_divergence :
    ∀ (cfg : Config) (q : Bool) (curr : String) (saw n : Nat),
      renderTopFuelX selfMapHeapX cfg n (.mapRef selfMapTy 0) q curr saw = none := by
  intro cfg q curr saw n
  simp only [renderTopFuelX]
  rw [(runFuelX_selfMap_none cfg n).1 ⟨0, 0⟩ true q _ (by simp)]
  rfl

end Pretty
